import Mathlib

deriving instance DecidableEq for Except

namespace Helix

/-!
Verification development for the helix-pdf-signer library core
(input validation and signature-state coordination layer).

Strings of the TypeScript source are modelled as `List Char`; JavaScript
numbers appearing in geometry are modelled as rationals (`ℚ`); counts are
`Nat`.  Fallible operations are modelled with `Option`/`Except`.
-/

/-- JS strings are modelled as lists of characters. -/
abbrev Str := List Char

/-! ## Data model: signature fields (src/types/index.ts) -/

/-- `BoundingBox` from src/types/index.ts. -/
structure BoundingBox where
  x : ℚ
  y : ℚ
  width : ℚ
  height : ℚ
deriving DecidableEq, Repr

/-- `SignatureField` from src/types/index.ts. -/
structure SignatureField where
  id : Str
  pageIndex : Nat
  fieldName : Str
  boundingBox : BoundingBox
  required : Bool
  signedBy : Option Str
  signedAt : Option Str
deriving DecidableEq, Repr

/-! ## Completion tracker (src/hooks/useSignatureStatus.ts)

The effect computes
`signedCount = Array.from(signedFieldIds).length`,
`requiredCount = signatureFields.filter((f) => f.required).length`, and
`allSigned = signedCount >= requiredCount && requiredCount > 0`.
The set `signedFieldIds` is modelled as a list of ids (its enumeration). -/

/-- The required fields of a field list: `signatureFields.filter((f) => f.required)`. -/
def requiredFields (signatureFields : List SignatureField) : List SignatureField :=
  signatureFields.filter (·.required)

/-- The `allSigned` boolean computed by `useSignatureStatus`.
`signedFieldIds` is the enumeration of the ledger key set. -/
def allSigned (signatureFields : List SignatureField) (signedFieldIds : List Str) : Bool :=
  decide ((requiredFields signatureFields).length ≤ signedFieldIds.length) &&
    decide (0 < (requiredFields signatureFields).length)

/-- Number of required fields that have a ledger entry — the count used by the
claimed completion formula (spec §4.6), stated from the spec wording for
comparison with the code. -/
def requiredSignedCount (signatureFields : List SignatureField)
    (signedFieldIds : List Str) : Nat :=
  ((requiredFields signatureFields).filter (fun f => decide (f.id ∈ signedFieldIds))).length

/-- The completion predicate exactly as the claim states it:
`(count of required fields with a ledger entry) ≥ (count of required fields)`
and that count is positive. -/
def specAllSigned (signatureFields : List SignatureField)
    (signedFieldIds : List Str) : Prop :=
  (requiredFields signatureFields).length ≤ requiredSignedCount signatureFields signedFieldIds ∧
    0 < (requiredFields signatureFields).length

instance (fs : List SignatureField) (ids : List Str) :
    Decidable (specAllSigned fs ids) := by
  unfold specAllSigned; infer_instance

/-- A one-field document used in counterexamples: a single required field. -/
def sampleRequiredField : SignatureField :=
  { id := "f1".data
    pageIndex := 0
    fieldName := "sig".data
    boundingBox := { x := 0, y := 0, width := 100, height := 40 }
    required := true
    signedBy := none
    signedAt := none }

/-! ## Signature records (src/types/index.ts) -/

/-- The `type` discriminant of a signature: `'drawn' | 'typed'`. -/
inductive SigKind where
  | drawn
  | typed
deriving DecidableEq, Repr

/-- Optional `deviceInfo` metadata of a `SignatureData`. -/
structure DeviceInfo where
  platform : Str
  browser : Str
  isMobile : Bool
  screenResolution : Option Str
deriving DecidableEq, Repr

/-- `SignatureData` from src/types/index.ts (all CFR Part 11 fields). -/
structure SignatureData where
  type : SigKind
  data : Str
  timestamp : Str
  userAgent : Option Str
  signerName : Str
  signerIntent : Str
  signerId : Str
  authMethod : Str
  signatureHash : Str
  documentHash : Str
  sessionId : Str
  ipAddress : Option Str
  signatureVersion : Str
  deviceInfo : Option DeviceInfo
deriving DecidableEq, Repr

/-! ## String helpers shared by several components -/

/-- Split a list at the first occurrence of `c`: returns the part before and
the part after (the occurrence removed), or `none` when `c` is absent. -/
def splitFirst (c : Char) : Str → Option (Str × Str)
  | [] => none
  | x :: xs =>
    if x = c then some ([], xs)
    else
      match splitFirst c xs with
      | some (a, b) => some (x :: a, b)
      | none => none

/-- `dataUrl.split(',')[1]`: the segment between the first comma and the
second comma (or the end); `none` models JS `undefined` when there is no
comma at all (src/utils/signature-utils.ts, `dataURLToBase64`). -/
def dataURLToBase64 (s : Str) : Option Str :=
  match splitFirst ',' s with
  | none => none
  | some (_, r) =>
    match splitFirst ',' r with
    | none => some r
    | some (a, _) => some a

/-! ## Export assembler (src/utils/signature-utils.ts) -/

/-- RGB stroke colour of an ink annotation. -/
structure RGB where
  r : ℚ
  g : ℚ
  b : ℚ
deriving DecidableEq, Repr

/-- One ink line of a typed-signature export annotation. -/
structure InkLine where
  intensities : List ℚ
  points : List ℚ
deriving DecidableEq, Repr

/-- `PSPDFKitAnnotation` from src/types/index.ts (name shortened). -/
structure PSPDFKitAnnot where
  id : Str
  type : Str
  pageIndex : Nat
  bbox : List ℚ
  v : Nat
  createdAt : Str
  updatedAt : Str
  imageAttachmentId : Option Str
  formFieldName : Str
  blendMode : Option Str
  opacity : Option ℚ
  strokeColor : Option RGB
  strokeWidth : Option ℚ
  lines : Option (List InkLine)
deriving DecidableEq, Repr

/-- A base64 image attachment of the instant-JSON export. -/
structure Attachment where
  contentType : Str
  data : Option Str
deriving DecidableEq, Repr

/-- `PSPDFKitInstantJSON` from src/types/index.ts: the export document.  The
`attachments` record is omitted (`none`) when empty, mirroring
`...(Object.keys(attachments).length > 0 && { attachments })`. -/
structure InstantJSON where
  format : Str
  annotations : List PSPDFKitAnnot
  attachments : Option (List (Str × Attachment))
deriving DecidableEq, Repr

/-- `convertBBoxToPSPDFKit`: top-left-origin box to bottom-left-origin
`[x1, y1, x2, y2]`. -/
def convertBBoxToPSPDFKit (boundingBox : BoundingBox) (pageHeight : ℚ) : List ℚ :=
  let pdfY := pageHeight - boundingBox.y - boundingBox.height
  [boundingBox.x, pdfY, boundingBox.x + boundingBox.width, pdfY + boundingBox.height]

/-- `convertTextToInkLines`: the single placeholder line used for typed
signatures. -/
def convertTextToInkLines (boundingBox : BoundingBox) : List InkLine :=
  let centerY := boundingBox.height / 2
  [{ intensities := [1, 1]
     points := [10, centerY, boundingBox.width - 10, centerY] }]

/-- `createPSPDFKitAnnotation` (name shortened): builds the per-signature
export annotation.  `ts` is the `new Date().toISOString()` timestamp,
supplied as an explicit parameter. -/
def createPSPDFKitAnnot (ts : Str) (signatureData : SignatureData)
    (field : SignatureField) (pageHeight : ℚ) : PSPDFKitAnnot :=
  let bbox := convertBBoxToPSPDFKit field.boundingBox pageHeight
  if signatureData.type = SigKind.drawn then
    { id := field.id ++ "-annotation".data
      type := "pspdfkit/image".data
      pageIndex := field.pageIndex
      bbox := bbox
      v := 1
      createdAt := ts
      updatedAt := ts
      imageAttachmentId := some (field.id ++ "-attachment".data)
      formFieldName := field.fieldName
      blendMode := some "normal".data
      opacity := some 1
      strokeColor := none
      strokeWidth := none
      lines := none }
  else
    { id := field.id ++ "-annotation".data
      type := "pspdfkit/ink".data
      pageIndex := field.pageIndex
      bbox := bbox
      v := 1
      createdAt := ts
      updatedAt := ts
      imageAttachmentId := none
      formFieldName := field.fieldName
      blendMode := none
      opacity := none
      strokeColor := some { r := 0, g := 0, b := 0 }
      strokeWidth := some 2
      lines := some (convertTextToInkLines field.boundingBox) }

/-- One value of the map passed to `createPSPDFKitInstantJSON`. -/
structure ExportEntry where
  data : SignatureData
  field : SignatureField
  pageHeight : ℚ
deriving DecidableEq, Repr

/-- `createPSPDFKitInstantJSON`: assembles annotations and, for drawn
signatures, base64 attachments. -/
def createPSPDFKitInstantJSON (ts : Str) (signatures : List (Str × ExportEntry)) :
    InstantJSON :=
  let annotations := signatures.map fun p =>
    createPSPDFKitAnnot ts p.2.data p.2.field p.2.pageHeight
  let attachments := signatures.filterMap fun p =>
    if p.2.data.type = SigKind.drawn then
      some (p.2.field.id ++ "-attachment".data,
        { contentType := "image/png".data
          data := dataURLToBase64 p.2.data.data : Attachment })
    else none
  { format := "https://pspdfkit.com/instant-json/v1".data
    annotations := annotations
    attachments := if attachments = [] then none else some attachments }

/-- `dimensions?.height || 792`: falsy page heights (missing entry or `0`)
fall back to the US-Letter default. -/
def pageHeightOr792 (h : Option ℚ) : ℚ :=
  match h with
  | some v => if v = 0 then 792 else v
  | none => 792

/-- The mapping step of `getSignatures` for a single ledger entry: look up the
entry's field; an entry whose field id is unknown yields `none` and is
filtered out of the export. -/
def sigEntryFor (fields : List SignatureField) (pageDims : List (Nat × ℚ))
    (p : Str × SignatureData) : Option (Str × ExportEntry) :=
  match fields.find? (fun f => decide (f.id = p.1)) with
  | none => none
  | some field =>
    some (p.1,
      { data := p.2
        field := field
        pageHeight :=
          pageHeightOr792 ((pageDims.find? (fun q => decide (q.1 = field.pageIndex + 1))).map
            Prod.snd) })

/-- The `getSignatures` ref method (src/components/PDFViewer/PDFViewer.tsx):
maps the ledger through `sigEntryFor`, dropping entries for unknown fields,
then assembles the instant-JSON document. -/
def getSignatures (ts : Str) (signatures : List (Str × SignatureData))
    (fields : List SignatureField) (pageDims : List (Nat × ℚ)) : InstantJSON :=
  createPSPDFKitInstantJSON ts (signatures.filterMap (sigEntryFor fields pageDims))

/-- Strip a literal prefix: `some rest` when `s = p ++ rest`, else `none`. -/
def stripPre : Str → Str → Option Str
  | [], s => some s
  | _ :: _, [] => none
  | p :: ps, x :: xs => if x = p then stripPre ps xs else none

/-! ## Document URL validator (src/utils/pdf-utils.ts)

`validateDocumentUrl` with `ALLOWED_PROTOCOLS = ['https:', 'blob:', 'data:']`
and `ALLOWED_DOMAINS = (NODE_ENV === 'development' ? ['localhost',
'127.0.0.1'] : []) ++ caller-added domains`.  `new URL(url, origin)` is
modelled by a simplified parser that extracts the (lower-cased) scheme when
the string starts with `[A-Za-z][A-Za-z0-9+.-]*:` and otherwise resolves the
string relative to the current (https) origin; hostname extraction takes the
authority up to the first `/`, `:`, `?` or `#`. -/

/-- `process.env.NODE_ENV`. -/
inductive RuntimeMode where
  | development
  | production
deriving DecidableEq, Repr

/-- A scheme character after the first: `[A-Za-z0-9+.-]`. -/
def isSchemeChar (c : Char) : Bool :=
  c.isAlpha || c.isDigit || c = '+' || c = '-' || c = '.'

/-- Scan up to the `:` ending a scheme. -/
def schemeEnd : Str → Option (Str × Str)
  | [] => none
  | c :: cs =>
    if c = ':' then some ([], cs)
    else if isSchemeChar c then
      match schemeEnd cs with
      | some (a, b) => some (c :: a, b)
      | none => none
    else none

/-- The protocol (`"xxx:"`, lower-cased) and remainder of a URL string;
strings with no scheme resolve relative to the current https origin. -/
def parseProtocol (s : Str) : Str × Str :=
  match s with
  | [] => ("https:".data, [])
  | c :: cs =>
    if c.isAlpha then
      match schemeEnd cs with
      | some (a, b) => ((c :: a).map Char.toLower ++ ":".data, b)
      | none => ("https:".data, s)
    else ("https:".data, s)

/-- Hostname of the part after the scheme: drop a leading `//`, then take the
authority up to the first delimiter, lower-cased (simplified `new URL`). -/
def hostnameOf (rest : Str) : Str :=
  let afterSlashes := (stripPre "//".data rest).getD rest
  (afterSlashes.takeWhile fun c =>
    ¬ (c = '/' ∨ c = ':' ∨ c = '?' ∨ c = '#')).map Char.toLower

/-- Origin of a URL string (used for the blob same-origin check):
`protocol ++ "//" ++ authority`, the authority up to the first `/`, `?`
or `#`. -/
def originOf (s : Str) : Str :=
  let pr := parseProtocol s
  let afterSlashes := (stripPre "//".data pr.2).getD pr.2
  pr.1 ++ "//".data ++
    (afterSlashes.takeWhile fun c => ¬ (c = '/' ∨ c = '?' ∨ c = '#')).map Char.toLower

/-- `ALLOWED_DOMAINS`: the development loopback names followed by any
caller-configured domains. -/
def allowedDomains (mode : RuntimeMode) (extra : List Str) : List Str :=
  (if mode = RuntimeMode.development
    then ["localhost".data, "127.0.0.1".data] else []) ++ extra

/-- `validateDocumentUrl` (src/utils/pdf-utils.ts).  `extra` is the
caller-configured domain allow-list, `currentOrigin` is
`window.location.origin`. -/
def validateDocumentUrl (mode : RuntimeMode) (extra : List Str)
    (currentOrigin : Str) (url : Str) : Bool :=
  if url = [] then false
  else if 2048 < url.length then false
  else
    let protocol := (parseProtocol url).1
    let rest := (parseProtocol url).2
    if ¬ (protocol = "https:".data ∨ protocol = "blob:".data ∨
        protocol = "data:".data) then false
    else if protocol = "https:".data ∧
        allowedDomains mode extra = [] ∧ mode ≠ RuntimeMode.development then false
    else if protocol = "https:".data ∧
        ¬ (allowedDomains mode extra = [] ∨
          (allowedDomains mode extra).any fun d =>
            hostnameOf rest = d ∨
              List.isSuffixOf (".".data ++ d) (hostnameOf rest)) then false
    else if protocol = "blob:".data ∧ originOf rest ≠ currentOrigin then false
    else if protocol = "data:".data ∧
        (stripPre "data:application/pdf;".data url) = none then false
    else if protocol = "data:".data ∧ 10485760 < url.length then false
    else true

/-! ## Image payload validator (src/utils/signature-utils.ts)

`validateImageDataUrl` tests the input against the anchored pattern
`^data:image/(png|jpeg|jpg|gif|webp);base64,[A-Za-z0-9+/]+=*$`
(`DATA_URL_REGEX`), then extracts the base64 body with
`^data:image\/([^;]+);base64,(.+)$` and checks the estimated decoded size and
null bytes.  Both regexes are embedded as explicit decompositions: the
alternatives and the base64 alphabet contain no `;`, so each pattern matches
exactly when the string splits at its first `;` as written below. -/

/-- The allowed raster image types (`ALLOWED_IMAGE_TYPES`). -/
def allowedImageTypes : List Str :=
  ["png".data, "jpeg".data, "jpg".data, "gif".data, "webp".data]

/-- A character of the base64 alphabet proper: `[A-Za-z0-9+/]`. -/
def isBase64Char (c : Char) : Bool :=
  c.isAlpha || c.isDigit || c = '+' || c = '/'

/-- `[A-Za-z0-9+/]+=*`: a non-empty run of base64 characters followed by any
number of `=` padding characters. -/
def isBase64Body (b : Str) : Bool :=
  let coreRev := b.reverse.dropWhile (· == Char.ofNat 61)
  decide (coreRev ≠ []) && coreRev.all isBase64Char

/-- The strict pattern `DATA_URL_REGEX`: returns the captured type and body. -/
def matchImageDataUrl (s : Str) : Option (Str × Str) :=
  (stripPre "data:image/".data s).bind fun r =>
    (splitFirst ';' r).bind fun pr =>
      if pr.1 ∈ allowedImageTypes then
        (stripPre "base64,".data pr.2).bind fun b =>
          if isBase64Body b then some (pr.1, b) else none
      else none

/-- The extraction pattern `^data:image\/[^;]+;base64,(.+)$`: returns the
captured base64 portion. -/
def extractBase64 (s : Str) : Option Str :=
  (stripPre "data:image/".data s).bind fun r =>
    (splitFirst ';' r).bind fun pr =>
      if pr.1 = [] then none
      else
        (stripPre "base64,".data pr.2).bind fun b =>
          if b = [] then none else some b

/-- `validateImageDataUrl` (src/utils/signature-utils.ts). -/
def validateImageDataUrl (dataUrl : Str) : Bool :=
  if dataUrl = [] then false
  else if 5242880 < dataUrl.length then false
  else if matchImageDataUrl dataUrl = none then false
  else
    (extractBase64 dataUrl).elim false fun base64Data =>
      -- `estimatedByteSize = (len*3)/4 > 2*1024*1024`, an exact comparison
      -- since the division by 4 is exact in JS floats: `3*len > 8388608`.
      if 8388608 < 3 * base64Data.length then false
      else if Char.ofNat 0 ∈ base64Data then false
      else true

/-- `sanitizeImageDataUrl`: the input unchanged if valid, else `none`. -/
def sanitizeImageDataUrl (dataUrl : Str) : Option Str :=
  if validateImageDataUrl dataUrl then some dataUrl else none

/-- The safe-image-payload property exactly as the claim states it: a
non-empty string of at most 5·1024·1024 characters of the exact shape
`data:image/(png|jpeg|jpg|gif|webp);base64,<body>` whose body is drawn from
the base64 alphabet (a non-empty run of base64 characters, then `=` padding),
whose estimated decoded size `|body|·3/4` is at most 2 MB, and whose body
contains no null bytes. -/
def specSafeImagePayload (s : Str) : Prop :=
  s ≠ [] ∧ s.length ≤ 5242880 ∧
    ∃ t core pad, t ∈ allowedImageTypes ∧
      s = "data:image/".data ++ t ++ ";base64,".data ++ (core ++ pad) ∧
      core ≠ [] ∧ (∀ c ∈ core, isBase64Char c) ∧
      (∀ c ∈ pad, c = Char.ofNat 61) ∧
      3 * (core ++ pad).length ≤ 8388608 ∧
      Char.ofNat 0 ∉ core ++ pad

/-! ## Typed-signature text sanitizer
(src/components/SignatureCapture/SignatureTyped.tsx)

`sanitizeSignatureText` trims, checks length 2..100, tests the whole string
against `ALLOWED_CHARS = /^[a-zA-Z\s\-'.]+$/`, and rejects ASCII control
characters `/[\x00-\x1F\x7F]/`; errors are thrown with a user-displayable
message.  The JS `\s` class (also used by `String.prototype.trim`) covers the
ASCII whitespace controls plus the Unicode whitespace characters listed in
`jsWhitespace` — in particular the no-break space U+00A0, which is *not* an
ASCII control character. -/

/-- The ECMAScript `\s` character class (WhiteSpace ∪ LineTerminator). -/
def jsWhitespace (c : Char) : Bool :=
  c.toNat = 9 || c.toNat = 10 || c.toNat = 11 || c.toNat = 12 || c.toNat = 13 ||
    c.toNat = 32 || c.toNat = 160 || c.toNat = 5760 ||
    (8192 ≤ c.toNat && c.toNat ≤ 8202) ||
    c.toNat = 8232 || c.toNat = 8233 || c.toNat = 8239 || c.toNat = 8287 ||
    c.toNat = 12288 || c.toNat = 65279

/-- `String.prototype.trim`: strip leading and trailing JS whitespace. -/
def jsTrim (s : Str) : Str :=
  ((s.dropWhile jsWhitespace).reverse.dropWhile jsWhitespace).reverse

/-- A character admitted by `ALLOWED_CHARS = /[a-zA-Z\s\-'.]/`: ASCII letter,
JS whitespace, hyphen, apostrophe (U+0027) or period. -/
def allowedSigChar (c : Char) : Bool :=
  c.isAlpha || jsWhitespace c || c = '-' || c = Char.ofNat 39 || c = '.'

/-- `/[\x00-\x1F\x7F]/`: ASCII control characters. -/
def isControlChar (c : Char) : Bool :=
  c.toNat ≤ 31 || c.toNat = 127

/-- `sanitizeSignatureText` (SignatureTyped.tsx): returns the trimmed text or
throws a user-displayable validation error. -/
def sanitizeSignatureText (text : Str) : Except Str Str :=
  let trimmed := jsTrim text
  if trimmed.length < 2 then
    Except.error "Signature must be at least 2 characters long".data
  else if 100 < trimmed.length then
    Except.error "Signature must be 100 characters or less".data
  else if ¬ trimmed.all allowedSigChar then
    Except.error
      "Signature can only contain letters, spaces, hyphens, apostrophes, and periods".data
  else if trimmed.any isControlChar then
    Except.error "Signature contains invalid control characters".data
  else Except.ok trimmed

/-- A character of the set the *claim* names: letters, the space character,
hyphen, apostrophe, period — no other whitespace. -/
def claimAllowedChar (c : Char) : Bool :=
  c.isAlpha || c = ' ' || c = '-' || c = Char.ofNat 39 || c = '.'

/-- The failure condition exactly as the claim states it. -/
def claimFailCond (text : Str) : Prop :=
  (jsTrim text).length < 2 ∨ 100 < (jsTrim text).length ∨
    (∃ c ∈ jsTrim text, claimAllowedChar c = false) ∨
    ∃ c ∈ jsTrim text, isControlChar c = true

instance (text : Str) : Decidable (claimFailCond text) := by
  unfold claimFailCond; infer_instance

/-- The name `Jo<NBSP>e`: contains U+00A0, which is outside the claim's
character set and not an ASCII control character. -/
def nbspName : Str := ['J', 'o', Char.ofNat 160, 'e']

/-! ## Annotation field extractor (src/utils/pdf-utils.ts)

`extractSignatureFields` filters each page's annotations to
`subtype === 'Widget' && fieldType === 'Sig'`, validates the rect with
`validateRect` (skipping the annotation entirely on failure), sanitizes the
field name, and assigns `id = "sig-<page>-<ordinal>"`.  A raw rect entry is a
JS number after the `rect.map(Number)` conversion: `nan` models any value
that converts to `NaN`, and the infinities are kept separate because `isNaN`
does not reject them (the magnitude bound does). -/

/-- A JS number as it can appear in an annotation rect after `Number(...)`. -/
inductive JSNum where
  | nan
  | posInf
  | negInf
  | fin (q : ℚ)
deriving DecidableEq, Repr

/-- `isNaN`. -/
def JSNum.isNaN : JSNum → Bool
  | .nan => true
  | _ => false

/-- `Math.abs(n) > bound` (false for `NaN`, true for the infinities; the
absolute value is spelled as a disjunction). -/
def JSNum.absGt (bound : ℚ) : JSNum → Bool
  | .nan => false
  | .posInf => true
  | .negInf => true
  | .fin q => decide (bound < q ∨ q < -bound)

/-- The rational value of a finite JS number; only applied on the success
path of `validateRect`, after the `isNaN` and magnitude checks have excluded
every non-finite value. -/
def JSNum.val : JSNum → ℚ
  | .fin q => q
  | _ => 0

/-- A validated rect `[x1, y1, x2, y2]`. -/
structure Rect4 where
  x1 : ℚ
  y1 : ℚ
  x2 : ℚ
  y2 : ℚ
deriving DecidableEq, Repr

/-- `validateRect` (src/utils/pdf-utils.ts): `none` models both a `null`
return and a non-array input (`Array.isArray` failing). -/
def validateRect : Option (List JSNum) → Option Rect4
  | none => none
  | some nums =>
    match nums with
    | [n0, n1, n2, n3] =>
      if [n0, n1, n2, n3].any JSNum.isNaN then none
      else if [n0, n1, n2, n3].any (JSNum.absGt 100000) then none
      else
        let width := n2.val - n0.val
        let height := n3.val - n1.val
        if width ≤ 0 ∨ height ≤ 0 then none
        else if width < 10 ∨ height < 10 then none
        else if 10000 < width ∨ 10000 < height then none
        else some { x1 := n0.val, y1 := n1.val, x2 := n2.val, y2 := n3.val }
    | _ => none

/-- A character kept by `sanitizeFieldName`: `[a-zA-Z0-9_-]`. -/
def isFieldNameChar (c : Char) : Bool :=
  c.isAlpha || c.isDigit || c = '_' || c = '-'

/-- `sanitizeFieldName` (src/utils/pdf-utils.ts): `none` models a non-string
`fieldName`. -/
def sanitizeFieldName (name : Option Str) : Str :=
  match name with
  | none => []
  | some nm =>
    if nm = [] then []
    else
      let trimmed := jsTrim nm
      let sanitized := (trimmed.take 100).filter isFieldNameChar
      if sanitized = [] then "signature-field".data else sanitized

/-- A raw annotation record as delivered by the rendering engine; optional
fields model `undefined`/non-string/non-boolean values. -/
structure Ann where
  subtype : Option Str
  fieldType : Option Str
  rect : Option (List JSNum)
  fieldName : Option Str
  required : Option Bool
deriving DecidableEq, Repr

/-- The filter `ann.subtype === 'Widget' && ann.fieldType === 'Sig'`. -/
def isSigWidget (ann : Ann) : Bool :=
  decide (ann.subtype = some "Widget".data) && decide (ann.fieldType = some "Sig".data)

/-- `"sig-<page>-<ordinal>"`. -/
def fieldId (page ordinal : Nat) : Str :=
  "sig-".data ++ Nat.toDigits 10 page ++ "-".data ++ Nat.toDigits 10 ordinal

/-- `"signature-<page>-<ordinal>"`, the fallback field name. -/
def fallbackFieldName (page ordinal : Nat) : Str :=
  "signature-".data ++ Nat.toDigits 10 page ++ "-".data ++ Nat.toDigits 10 ordinal

/-- The body of the `forEach` in `extractSignatureFields` for the annotation
at (0-based) page `i0` and ordinal `idx`: `none` when the annotation is
skipped because its rect fails validation. -/
def extractOne (i0 : Nat) (p : Nat × Ann) : Option SignatureField :=
  match validateRect p.2.rect with
  | none => none
  | some r =>
    let sanitizedFieldName := sanitizeFieldName p.2.fieldName
    some
      { id := fieldId (i0 + 1) p.1
        pageIndex := i0
        fieldName :=
          if sanitizedFieldName = [] then fallbackFieldName (i0 + 1) p.1
          else sanitizedFieldName
        boundingBox :=
          { x := r.x1, y := r.y1, width := r.x2 - r.x1, height := r.y2 - r.y1 }
        required := p.2.required.getD true
        signedBy := none
        signedAt := none }

/-- `extractSignatureFields` (src/utils/pdf-utils.ts): `pages` is the
per-page annotation list delivered by `getAnnotations`, page 1 first. -/
def extractSignatureFields (pages : List (List Ann)) : List SignatureField :=
  (pages.enum.map fun pg =>
    ((pg.2.filter isSigWidget).enum.filterMap (extractOne pg.1))).flatten

/-- A Widget/Sig annotation whose rect `[0,0,5,5]` is too small. -/
def smallRectAnn : Ann :=
  { subtype := some "Widget".data
    fieldType := some "Sig".data
    rect := some [JSNum.fin 0, JSNum.fin 0, JSNum.fin 5, JSNum.fin 5]
    fieldName := none
    required := none }

/-! ## SHA-256 (the `crypto.subtle.digest('SHA-256', …)` primitive)

A complete executable SHA-256 over byte lists, with 32-bit words as `Nat`
reduced modulo `2^32`.  `generateSignatureHash` composes it with the UTF-8
encoding of the canonical serialization below. -/

/-- Truncate to 32 bits. -/
def mod32 (x : Nat) : Nat := x % 4294967296

/-- 32-bit right rotation. -/
def rotr32 (n x : Nat) : Nat := mod32 ((x >>> n) ||| (x <<< (32 - n)))

/-- The SHA-256 big sigma-0 function. -/
def bsig0 (x : Nat) : Nat := (rotr32 2 x) ^^^ (rotr32 13 x) ^^^ (rotr32 22 x)

/-- The SHA-256 big sigma-1 function. -/
def bsig1 (x : Nat) : Nat := (rotr32 6 x) ^^^ (rotr32 11 x) ^^^ (rotr32 25 x)

/-- The SHA-256 small sigma-0 function. -/
def ssig0 (x : Nat) : Nat := (rotr32 7 x) ^^^ (rotr32 18 x) ^^^ (x >>> 3)

/-- The SHA-256 small sigma-1 function. -/
def ssig1 (x : Nat) : Nat := (rotr32 17 x) ^^^ (rotr32 19 x) ^^^ (x >>> 10)

/-- The SHA-256 choose function. -/
def shaCh (e f g : Nat) : Nat := (e &&& f) ^^^ ((e ^^^ 4294967295) &&& g)

/-- The SHA-256 majority function. -/
def shaMaj (a b c : Nat) : Nat := (a &&& b) ^^^ (a &&& c) ^^^ (b &&& c)

/-- The SHA-256 round constants (the fractional parts of the cube roots of
the first 64 primes), written in decimal. -/
def shaK : List Nat :=
  [1116352408, 1899447441, 3049323471, 3921009573,  -- 428a2f98 71374491 b5c0fbcf e9b5dba5
   961987163, 1508970993, 2453635748, 2870763221,  -- 3956c25b 59f111f1 923f82a4 ab1c5ed5
   3624381080, 310598401, 607225278, 1426881987,  -- d807aa98 12835b01 243185be 550c7dc3
   1925078388, 2162078206, 2614888103, 3248222580,  -- 72be5d74 80deb1fe 9bdc06a7 c19bf174
   3835390401, 4022224774, 264347078, 604807628,  -- e49b69c1 efbe4786 0fc19dc6 240ca1cc
   770255983, 1249150122, 1555081692, 1996064986,  -- 2de92c6f 4a7484aa 5cb0a9dc 76f988da
   2554220882, 2821834349, 2952996808, 3210313671,  -- 983e5152 a831c66d b00327c8 bf597fc7
   3336571891, 3584528711, 113926993, 338241895,  -- c6e00bf3 d5a79147 06ca6351 14292967
   666307205, 773529912, 1294757372, 1396182291,  -- 27b70a85 2e1b2138 4d2c6dfc 53380d13
   1695183700, 1986661051, 2177026350, 2456956037,  -- 650a7354 766a0abb 81c2c92e 92722c85
   2730485921, 2820302411, 3259730800, 3345764771,  -- a2bfe8a1 a81a664b c24b8b70 c76c51a3
   3516065817, 3600352804, 4094571909, 275423344,  -- d192e819 d6990624 f40e3585 106aa070
   430227734, 506948616, 659060556, 883997877,  -- 19a4c116 1e376c08 2748774c 34b0bcb5
   958139571, 1322822218, 1537002063, 1747873779,  -- 391c0cb3 4ed8aa4a 5b9cca4f 682e6ff3
   1955562222, 2024104815, 2227730452, 2361852424,  -- 748f82ee 78a5636f 84c87814 8cc70208
   2428436474, 2756734187, 3204031479, 3329325298]  -- 90befffa a4506ceb bef9a3f7 c67178f2

/-- A SHA-256 working state / chaining value. -/
structure Hash8 where
  a : Nat
  b : Nat
  c : Nat
  d : Nat
  e : Nat
  f : Nat
  g : Nat
  h : Nat
deriving DecidableEq, Repr

/-- The SHA-256 initial hash value, written in decimal. -/
def sha256Init : Hash8 :=
  { a := 1779033703  -- 6a09e667
    b := 3144134277  -- bb67ae85
    c := 1013904242  -- 3c6ef372
    d := 2773480762  -- a54ff53a
    e := 1359893119  -- 510e527f
    f := 2600822924  -- 9b05688c
    g := 528734635  -- 1f83d9ab
    h := 1541459225 }  -- 5be0cd19

/-- One round of the SHA-256 compression function. -/
def compressStep (st : Hash8) (wk : Nat × Nat) : Hash8 :=
  let t1 := mod32 (st.h + bsig1 st.e + shaCh st.e st.f st.g + wk.2 + wk.1)
  let t2 := mod32 (bsig0 st.a + shaMaj st.a st.b st.c)
  { a := mod32 (t1 + t2), b := st.a, c := st.b, d := st.c
    e := mod32 (st.d + t1), f := st.e, g := st.f, h := st.g }

/-- Extend a 16-word block to the 64-word message schedule; `fuel` counts the
words still to be appended. -/
def extendW (w : List Nat) : Nat → List Nat
  | 0 => w
  | fuel + 1 =>
    let n := w.length
    let next := mod32 (ssig1 (w.getD (n - 2) 0) + w.getD (n - 7) 0 +
      ssig0 (w.getD (n - 15) 0) + w.getD (n - 16) 0)
    extendW (w ++ [next]) fuel

/-- Process one 512-bit block. -/
def sha256Block (hs : Hash8) (block : List Nat) : Hash8 :=
  let w := extendW block 48
  let st := (w.zip shaK).foldl compressStep hs
  { a := mod32 (hs.a + st.a), b := mod32 (hs.b + st.b)
    c := mod32 (hs.c + st.c), d := mod32 (hs.d + st.d)
    e := mod32 (hs.e + st.e), f := mod32 (hs.f + st.f)
    g := mod32 (hs.g + st.g), h := mod32 (hs.h + st.h) }

/-- Process the 16-word blocks of `ws`; `fuel` bounds the recursion and is
instantiated with `ws.length`, which suffices since every step drops 16
words. -/
def sha256Blocks : Nat → Hash8 → List Nat → Hash8
  | 0, hs, _ => hs
  | fuel + 1, hs, ws =>
    if ws = [] then hs
    else sha256Blocks fuel (sha256Block hs (ws.take 16)) (ws.drop 16)

/-- `count` bytes of `n`, big-endian. -/
def natToBytesBE : Nat → Nat → List Nat
  | 0, _ => []
  | count + 1, n => natToBytesBE count (n / 256) ++ [n % 256]

/-- SHA-256 padding: `0x80`, zeros, and the 64-bit big-endian bit length. -/
def padMessage (msg : List Nat) : List Nat :=
  msg ++ [128] ++ List.replicate ((55 - msg.length % 64) % 64) 0 ++
    natToBytesBE 8 (msg.length * 8)

/-- Group bytes into big-endian 32-bit words. -/
def bytesToWords : List Nat → List Nat
  | b0 :: b1 :: b2 :: b3 :: rest =>
    (((b0 * 256 + b1) * 256 + b2) * 256 + b3) :: bytesToWords rest
  | _ => []

/-- The SHA-256 digest of a byte list, as a 256-bit number. -/
def sha256Num (msg : List Nat) : Nat :=
  let ws := bytesToWords (padMessage msg)
  let hs := sha256Blocks ws.length sha256Init ws
  ((((((hs.a * 4294967296 + hs.b) * 4294967296 + hs.c) * 4294967296 + hs.d) *
        4294967296 + hs.e) * 4294967296 + hs.f) * 4294967296 + hs.g) *
    4294967296 + hs.h

/-- The lowercase hex digit of `n % 16`. -/
def hexDigit (n : Nat) : Char := "0123456789abcdef".data.getD n '0'

/-- `count` lowercase hex digits of `n`, big-endian — for a 32-byte digest
this equals the source's per-byte `toString(16).padStart(2, '0')` join. -/
def natToHex : Nat → Nat → Str
  | 0, _ => []
  | count + 1, n => natToHex count (n / 16) ++ [hexDigit (n % 16)]

/-- UTF-8 encoding of one character (`TextEncoder`). -/
def utf8Char (c : Char) : List Nat :=
  let n := c.toNat
  if n < 128 then [n]
  else if n < 2048 then [192 + n / 64, 128 + n % 64]
  else if n < 65536 then [224 + n / 4096, 128 + (n / 64) % 64, 128 + n % 64]
  else [240 + n / 262144, 128 + (n / 4096) % 64, 128 + (n / 64) % 64, 128 + n % 64]

/-- UTF-8 encoding of a string (`TextEncoder().encode`). -/
def utf8Encode (s : Str) : List Nat := (s.map utf8Char).flatten

/-! ## Canonical serialization (`JSON.stringify` of the seven hash fields)

`generateSignatureHash` hashes
`JSON.stringify({type, data, timestamp, signerName, signerId, signerIntent,
documentHash})`.  Object keys keep insertion order, every value is a string,
and `JSON.stringify` escapes exactly `"`, `\` and the control characters
below 0x20 (with short escapes for backspace, tab, line feed, form feed and
carriage return, and `\u00xx` otherwise).  The serialization below spells
that output with the append structure right-nested so that each field is
followed by its closing quote. -/

/-- The two-character JSON escapes: the escaped character for `"`, `\`,
backspace, tab, line feed, form feed and carriage return. -/
def specialEsc (c : Char) : Option Char :=
  if c = '"' then some '"'
  else if c = '\\' then some '\\'
  else if c = Char.ofNat 8 then some 'b'
  else if c = Char.ofNat 9 then some 't'
  else if c = Char.ofNat 10 then some 'n'
  else if c = Char.ofNat 12 then some 'f'
  else if c = Char.ofNat 13 then some 'r'
  else none

/-- The JSON escape of one character inside a string literal. -/
def escChar (c : Char) : Str :=
  match specialEsc c with
  | some k => ['\\', k]
  | none =>
    if c.toNat < 32 then
      ['\\', 'u', '0', '0', hexDigit (c.toNat / 16), hexDigit (c.toNat % 16)]
    else [c]

/-- The JSON escape of a whole string (without the surrounding quotes). -/
def jsonEscape (s : Str) : Str := (s.map escChar).flatten

/-- The serialized form of the `type` discriminant. -/
def kindStr : SigKind → Str
  | SigKind.drawn => "drawn".data
  | SigKind.typed => "typed".data

/-- One serialized string value followed by its closing quote and the rest of
the document. -/
def seg (v : Str) (rest : Str) : Str := jsonEscape v ++ ('"' :: rest)

/-- The canonical hash input: `JSON.stringify` of the seven fields in source
order (braces written `\x7b`/`\x7d`). -/
def hashInput (d : SignatureData) : Str :=
  "\x7b\"type\":\"".data ++ seg (kindStr d.type)
    (",\"data\":\"".data ++ seg d.data
      (",\"timestamp\":\"".data ++ seg d.timestamp
        (",\"signerName\":\"".data ++ seg d.signerName
          (",\"signerId\":\"".data ++ seg d.signerId
            (",\"signerIntent\":\"".data ++ seg d.signerIntent
              (",\"documentHash\":\"".data ++ seg d.documentHash "\x7d".data))))))

/-- `generateSignatureHash` (src/utils/signature-utils.ts): the hex-encoded
SHA-256 of the canonical serialization; only the seven serialized fields of
the record influence the result (the `signatureHash` field itself is ignored,
matching the `Omit<SignatureData, 'signatureHash'>` input type). -/
def generateSignatureHash (d : SignatureData) : Str :=
  natToHex 64 (sha256Num (utf8Encode (hashInput d)))

/-- The seven fields hashed by `generateSignatureHash`. -/
structure HashFields where
  type : SigKind
  data : Str
  timestamp : Str
  signerName : Str
  signerId : Str
  signerIntent : Str
  documentHash : Str
deriving DecidableEq, Repr

/-- Project the seven hashed fields out of a record. -/
def tuple7 (d : SignatureData) : HashFields :=
  { type := d.type, data := d.data, timestamp := d.timestamp
    signerName := d.signerName, signerId := d.signerId
    signerIntent := d.signerIntent, documentHash := d.documentHash }

/-! ## Compliance stamper (src/utils/signature-utils.ts)

`createCFRCompliantSignature(baseData, context, signatureIntent)`.  The
ambient browser values read inside the function (`new Date()`, `navigator`,
`window.screen`) are passed explicitly. -/

/-- The caller-supplied identity/session context (`PDFSignerProps.signatureContext`). -/
structure SignContext where
  signerName : Str
  signerId : Str
  sessionId : Str
  documentHash : Str
  authMethod : Str
  ipAddress : Option Str
deriving DecidableEq, Repr

/-- The ambient browser environment read during stamping. -/
structure Ambient where
  now : Str
  userAgent : Str
  platform : Str
  screenResolution : Str
deriving DecidableEq, Repr

/-- Whether `p` occurs as a contiguous substring of the second argument. -/
def containsSub (p : Str) : Str → Bool
  | [] => decide (p = [])
  | c :: rest => (stripPre p (c :: rest)).isSome || containsSub p rest

/-- `/Mobile|Android|iPhone|iPad/.test(navigator.userAgent)`. -/
def isMobileUA (ua : Str) : Bool :=
  ["Mobile".data, "Android".data, "iPhone".data, "iPad".data].any
    fun p => containsSub p ua

/-- `createCFRCompliantSignature` (src/utils/signature-utils.ts): validates
the four required context fields, then unconditionally records the timestamp,
user agent, ip address and device info and computes the signature hash.  The
function takes no `collectDeviceInfo` parameter. -/
def createCFRCompliantSignature (baseData : SigKind × Str) (context : SignContext)
    (signatureIntent : Str) (amb : Ambient) : Except Str SignatureData :=
  if context.signerName = [] then
    Except.error "signerName is required for CFR Part 11 compliance".data
  else if context.signerId = [] then
    Except.error "signerId is required for CFR Part 11 compliance".data
  else if context.documentHash = [] then
    Except.error "documentHash is required for CFR Part 11 compliance".data
  else if signatureIntent = [] then
    Except.error "signatureIntent is required for CFR Part 11 compliance".data
  else
    let partialData : SignatureData :=
      { type := baseData.1
        data := baseData.2
        timestamp := amb.now
        userAgent := some amb.userAgent
        signerName := context.signerName
        signerId := context.signerId
        signerIntent := signatureIntent
        authMethod := context.authMethod
        documentHash := context.documentHash
        sessionId := context.sessionId
        ipAddress := context.ipAddress
        signatureVersion := "1.0.0".data
        deviceInfo := some
          { platform := amb.platform
            browser := amb.userAgent
            isMobile := isMobileUA amb.userAgent
            screenResolution := some amb.screenResolution }
        signatureHash := [] }
    Except.ok { partialData with signatureHash := generateSignatureHash partialData }

/-- A concrete valid signature context for witnesses. -/
def sampleContext : SignContext :=
  { signerName := "John Doe".data
    signerId := "user-123".data
    sessionId := "session-abc".data
    documentHash := "doc-hash-xyz".data
    authMethod := "okta_2fa".data
    ipAddress := some "203.0.113.42".data }

/-- A concrete ambient environment for witnesses. -/
def sampleAmbient : Ambient :=
  { now := "2024-01-01T00:00:00.000Z".data
    userAgent := "Mozilla/5.0 Test".data
    platform := "MacIntel".data
    screenResolution := "1920x1080".data }

/-- An SVG image payload, rejected by `validateImageDataUrl`. -/
def svgPayload : Str := "data:image/svg+xml;base64,AAAA".data

/-- A concrete minimal signature record used in witnesses. -/
def sampleSignatureData : SignatureData :=
  { type := SigKind.typed
    data := "John Doe".data
    timestamp := "2024-01-01T00:00:00.000Z".data
    userAgent := none
    signerName := "John Doe".data
    signerIntent := "I approve this document".data
    signerId := "user-123".data
    authMethod := "okta".data
    signatureHash := "h".data
    documentHash := "d".data
    sessionId := "s".data
    ipAddress := none
    signatureVersion := "1.0.0".data
    deviceInfo := none }

/-- A second record for witnesses, differing from `sampleSignatureData` only
in `signerName`. -/
def sampleSignatureDataJane : SignatureData :=
  { sampleSignatureData with signerName := "Jane Smith".data }

/-! ## Viewer page navigation (src/components/PDFViewer/PDFViewer.tsx)

`goToPage: (page) => setPageNumber(Math.max(1, Math.min(page, numPages)))`. -/

/-- The viewer state relevant to `goToPage`. -/
structure ViewerState where
  pageNumber : Int
  numPages : Int
deriving DecidableEq, Repr

/-- The `goToPage` ref method: clamps the requested page and stores it. -/
def goToPage (page : Int) (st : ViewerState) : ViewerState :=
  { st with pageNumber := max 1 (min page st.numPages) }

/-- A context whose `signerName` is empty. -/
def emptyNameContext : SignContext :=
  { sampleContext with signerName := [] }

/-- The boundedness predicate of a SHA-256 chaining value. -/
def Hash8.bounded (hs : Hash8) : Prop :=
  hs.a < 4294967296 ∧ hs.b < 4294967296 ∧ hs.c < 4294967296 ∧
    hs.d < 4294967296 ∧ hs.e < 4294967296 ∧ hs.f < 4294967296 ∧
    hs.g < 4294967296 ∧ hs.h < 4294967296

theorem splitFirst_eq_some {c : Char} {s a b : Str}
    (h : splitFirst c s = some (a, b)) : s = a ++ c :: b ∧ c ∉ a := by
  induction s generalizing a b with
  | nil => simp [splitFirst] at h
  | cons x xs ih =>
    by_cases hx : x = c
    · simp [splitFirst, hx] at h
      obtain ⟨ha, hb⟩ := h
      subst ha
      subst hb
      exact ⟨by simp [hx], by simp⟩
    · simp only [splitFirst, if_neg hx] at h
      cases hsp : splitFirst c xs with
      | none => rw [hsp] at h; simp at h
      | some p =>
        rw [hsp] at h
        cases p with
        | mk a0 b0 =>
          simp at h
          obtain ⟨ha, hb⟩ := h
          obtain ⟨hxs, hnot⟩ := ih (by rw [hsp, hb])
          subst ha
          constructor
          · simp [hxs]
          · simp [hnot]
            exact fun hc => hx hc.symm

theorem splitFirst_append {c : Char} {a : Str} (b : Str) (ha : c ∉ a) :
    splitFirst c (a ++ c :: b) = some (a, b) := by
  induction a with
  | nil => simp [splitFirst]
  | cons x xs ih =>
    have hx : x ≠ c := by intro h; exact ha (by simp [h])
    have hxs : c ∉ xs := fun h => ha (by simp [h])
    simp [splitFirst, hx, ih hxs]

theorem stripPre_eq_some {p s r : Str} :
    stripPre p s = some r ↔ s = p ++ r := by
  induction p generalizing s with
  | nil => simp [stripPre]
  | cons c cs ih =>
    cases s with
    | nil => simp [stripPre]
    | cons x xs =>
      by_cases hx : x = c
      · subst hx
        simp [stripPre, ih]
      · simp [stripPre, hx, Ne.symm hx]

theorem takeWhile_append_of_all {p : Char → Bool} {a : Str} (b : Str)
    (h : ∀ c ∈ a, p c) : (a ++ b).takeWhile p = a ++ b.takeWhile p := by
  induction a with
  | nil => simp
  | cons x xs ih =>
    have hx : p x := h x (by simp)
    simp only [List.cons_append, List.takeWhile_cons, hx]
    simp [ih fun c hc => h c (by simp [hc])]

theorem dropWhile_append_of_all {p : Char → Bool} {a : Str} (b : Str)
    (h : ∀ c ∈ a, p c) : (a ++ b).dropWhile p = b.dropWhile p := by
  induction a with
  | nil => simp
  | cons x xs ih =>
    have hx : p x := h x (by simp)
    simp only [List.cons_append, List.dropWhile_cons, hx]
    simp [ih fun c hc => h c (by simp [hc])]

theorem isBase64Body_iff {b : Str} :
    isBase64Body b = true ↔
      ∃ core pad, b = core ++ pad ∧ core ≠ [] ∧
        (∀ c ∈ core, isBase64Char c) ∧ ∀ c ∈ pad, c = Char.ofNat 61 := by
  constructor
  · intro h
    simp only [isBase64Body, Bool.and_eq_true, decide_eq_true_eq] at h
    obtain ⟨hne, hall⟩ := h
    refine ⟨(b.reverse.dropWhile (· == Char.ofNat 61)).reverse,
      (b.reverse.takeWhile (· == Char.ofNat 61)).reverse, ?_, ?_, ?_, ?_⟩
    · have h1 : b.reverse.takeWhile (· == Char.ofNat 61) ++
          b.reverse.dropWhile (· == Char.ofNat 61) = b.reverse :=
        List.takeWhile_append_dropWhile (· == Char.ofNat 61) b.reverse
      apply List.reverse_injective
      rw [List.reverse_append, List.reverse_reverse, List.reverse_reverse, h1]
    · simpa using hne
    · intro c hc
      have : c ∈ b.reverse.dropWhile (· == Char.ofNat 61) := by
        simpa using hc
      exact (List.all_eq_true.mp hall) c this
    · intro c hc
      have hc2 : c ∈ b.reverse.takeWhile (· == Char.ofNat 61) := by
        simpa using hc
      have := List.mem_takeWhile_imp hc2
      simpa using this
  · rintro ⟨core, pad, rfl, hne, hcore, hpad⟩
    have hrev : (core ++ pad).reverse = pad.reverse ++ core.reverse := by simp
    have hpadrev : ∀ c ∈ pad.reverse, (c == Char.ofNat 61) = true := by
      intro c hc
      simp only [List.mem_reverse] at hc
      simp [hpad c hc]
    have hdrop : (core ++ pad).reverse.dropWhile (· == Char.ofNat 61) =
        core.reverse := by
      rw [hrev, dropWhile_append_of_all _ hpadrev]
      cases hr : core.reverse with
      | nil => simp_all
      | cons x xs =>
        have hx : x ∈ core := by
          have : x ∈ core.reverse := by simp [hr]
          simpa using this
        have hb64 : isBase64Char x := hcore x hx
        have hxne : (x == Char.ofNat 61) = false := by
          by_cases hx61 : x = Char.ofNat 61
          · subst hx61; simp [isBase64Char] at hb64
          · simp [hx61]
        simp [List.dropWhile_cons, hxne]
    simp only [isBase64Body, hdrop, Bool.and_eq_true, decide_eq_true_eq]
    constructor
    · simpa using hne
    · exact List.all_eq_true.mpr fun c hc => hcore c (by simpa using hc)

/-- Every allowed image type is a non-empty string without `;`. -/
theorem allowedImageTypes_wf : ∀ x ∈ allowedImageTypes, ';' ∉ x ∧ x ≠ [] := by
  decide

theorem matchImageDataUrl_eq_some_iff {s t b : Str} :
    matchImageDataUrl s = some (t, b) ↔
      t ∈ allowedImageTypes ∧ isBase64Body b = true ∧
        s = "data:image/".data ++ t ++ ";base64,".data ++ b := by
  constructor
  · intro h
    unfold matchImageDataUrl at h
    cases hp : stripPre "data:image/".data s with
    | none => rw [hp] at h; simp at h
    | some r =>
      rw [hp, Option.some_bind] at h
      cases hsp : splitFirst ';' r with
      | none => rw [hsp] at h; simp at h
      | some pr =>
        rw [hsp, Option.some_bind] at h
        obtain ⟨t0, rest⟩ := pr
        by_cases ht : t0 ∈ allowedImageTypes
        · rw [if_pos ht] at h
          cases hb : stripPre "base64,".data rest with
          | none => rw [hb] at h; simp at h
          | some b0 =>
            rw [hb, Option.some_bind] at h
            by_cases hbody : isBase64Body b0
            · rw [if_pos hbody] at h
              simp only [Option.some.injEq, Prod.mk.injEq] at h
              obtain ⟨rfl, rfl⟩ := h
              have hs : s = "data:image/".data ++ r := stripPre_eq_some.mp hp
              have hr := (splitFirst_eq_some hsp).1
              have hrest := stripPre_eq_some.mp hb
              refine ⟨ht, hbody, ?_⟩
              rw [hs, hr, hrest]
              simp
            · rw [if_neg hbody] at h; simp at h
        · rw [if_neg ht] at h; simp at h
  · rintro ⟨ht, hbody, rfl⟩
    have htsemi : ';' ∉ t := (allowedImageTypes_wf t ht).1
    unfold matchImageDataUrl
    have hp : stripPre "data:image/".data
        ("data:image/".data ++ t ++ ";base64,".data ++ b) =
          some (t ++ ";base64,".data ++ b) := by
      rw [stripPre_eq_some]
      simp
    rw [hp, Option.some_bind]
    have hsplit : splitFirst ';' (t ++ ";base64,".data ++ b) =
        some (t, "base64,".data ++ b) := by
      have he : t ++ ";base64,".data ++ b = t ++ ';' :: ("base64,".data ++ b) := by
        simp
      rw [he]
      exact splitFirst_append _ htsemi
    rw [hsplit, Option.some_bind, if_pos ht]
    have hb : stripPre "base64,".data ("base64,".data ++ b) = some b := by
      rw [stripPre_eq_some]
    rw [hb, Option.some_bind, if_pos hbody]

theorem extractBase64_of_match {s t b : Str}
    (h : matchImageDataUrl s = some (t, b)) : extractBase64 s = some b := by
  obtain ⟨ht, hbody, rfl⟩ := matchImageDataUrl_eq_some_iff.mp h
  have htsemi : ';' ∉ t := (allowedImageTypes_wf t ht).1
  have htne : t ≠ [] := (allowedImageTypes_wf t ht).2
  have hbne : b ≠ [] := by
    intro hbe
    subst hbe
    simp [isBase64Body] at hbody
  unfold extractBase64
  have hp : stripPre "data:image/".data
      ("data:image/".data ++ t ++ ";base64,".data ++ b) =
        some (t ++ ";base64,".data ++ b) := by
    rw [stripPre_eq_some]
    simp
  rw [hp, Option.some_bind]
  have hsplit : splitFirst ';' (t ++ ";base64,".data ++ b) =
      some (t, "base64,".data ++ b) := by
    have he : t ++ ";base64,".data ++ b = t ++ ';' :: ("base64,".data ++ b) := by
      simp
    rw [he]
    exact splitFirst_append _ htsemi
  rw [hsplit, Option.some_bind, if_neg htne]
  have hb : stripPre "base64,".data ("base64,".data ++ b) = some b := by
    rw [stripPre_eq_some]
  rw [hb, Option.some_bind, if_neg hbne]

theorem validateImageDataUrl_eq_true_iff {s : Str} :
    validateImageDataUrl s = true ↔
      s ≠ [] ∧ s.length ≤ 5242880 ∧
        ∃ t b, matchImageDataUrl s = some (t, b) ∧
          3 * b.length ≤ 8388608 ∧ Char.ofNat 0 ∉ b := by
  constructor
  · intro h
    unfold validateImageDataUrl at h
    by_cases h0 : s = []
    · rw [if_pos h0] at h; simp at h
    · rw [if_neg h0] at h
      by_cases h1 : 5242880 < s.length
      · rw [if_pos h1] at h; simp at h
      · rw [if_neg h1] at h
        cases hm : matchImageDataUrl s with
        | none => rw [if_pos hm] at h; simp at h
        | some p =>
          obtain ⟨t, b⟩ := p
          rw [if_neg (by simp [hm])] at h
          have hx : extractBase64 s = some b := extractBase64_of_match hm
          rw [hx, Option.elim_some] at h
          by_cases h2 : 8388608 < 3 * b.length
          · rw [if_pos h2] at h; simp at h
          · rw [if_neg h2] at h
            by_cases h3 : Char.ofNat 0 ∈ b
            · rw [if_pos h3] at h; simp at h
            · exact ⟨h0, by omega, t, b, rfl, by omega, h3⟩
  · rintro ⟨h0, h1, t, b, hm, h2, h3⟩
    unfold validateImageDataUrl
    rw [if_neg h0, if_neg (by omega), if_neg (by simp [hm]),
      extractBase64_of_match hm, Option.elim_some, if_neg (by omega), if_neg h3]

/-! ### Theorems for C1 and C10 -/

/-- C1 (counterexample): with a single required field `f1` and a ledger whose
only entry is for the unrelated id `f2`, the code reports `allSigned = true`
although the number of required fields with a ledger entry is zero, so the
claimed formula is false of the code. -/
theorem useSignatureStatus_counts_all_entries :
    allSigned [sampleRequiredField] ["f2".data] = true ∧
      ¬ specAllSigned [sampleRequiredField] ["f2".data] := by
  decide

/-- C1 (amended): `allSigned` is true exactly when the *total* number of ledger
entries is at least the number of required fields and that number is positive;
a document with zero required fields is never reported all-signed; and in the
intended regime — distinct field ids and every ledger entry belonging to a
required field — this coincides with "every required field has a ledger
entry". -/
theorem allSigned_spec (fields : List SignatureField) (ids : List Str) :
    (allSigned fields ids = true ↔
        ((requiredFields fields).length ≤ ids.length ∧
          0 < (requiredFields fields).length)) ∧
      ((requiredFields fields).length = 0 → allSigned fields ids = false) ∧
      (ids.Nodup → (∀ i ∈ ids, i ∈ (requiredFields fields).map (·.id)) →
        (fields.map (·.id)).Nodup →
        (allSigned fields ids = true ↔
          (0 < (requiredFields fields).length ∧
            ∀ f ∈ requiredFields fields, f.id ∈ ids))) := by
  refine ⟨by simp [allSigned], ?_, ?_⟩
  · intro h
    simp [allSigned, h]
  · intro hnd hsub hidnd
    have hreqnd : ((requiredFields fields).map (·.id)).Nodup := by
      have hsl : List.Sublist ((requiredFields fields).map (·.id)) (fields.map (·.id)) :=
        ((List.filter_sublist fields).map _)
      exact hidnd.sublist hsl
    constructor
    · intro h
      have hlen : (requiredFields fields).length ≤ ids.length := by
        have := (by simp [allSigned] at h; exact h :
          (requiredFields fields).length ≤ ids.length ∧
            0 < (requiredFields fields).length)
        exact this.1
      have hpos : 0 < (requiredFields fields).length := by
        simp [allSigned] at h; exact h.2
      refine ⟨hpos, ?_⟩
      -- `ids` is a duplicate-free list of required-field ids whose length is
      -- at least the number of required fields, hence it enumerates all of
      -- them.
      have hsp : List.Subperm ids ((requiredFields fields).map (·.id)) :=
        (List.subperm_of_subset hnd hsub)
      have hlen2 : ids.length ≤ ((requiredFields fields).map (·.id)).length :=
        hsp.length_le
      have hperm : List.Perm ids ((requiredFields fields).map (·.id)) := by
        refine hsp.perm_of_length_le ?_
        simpa using hlen
      intro f hf
      have : f.id ∈ (requiredFields fields).map (·.id) := List.mem_map_of_mem _ hf
      exact (hperm.mem_iff.mpr this)
    · rintro ⟨hpos, hall⟩
      have hsub2 : (requiredFields fields).map (·.id) ⊆ ids := by
        intro x hx
        rcases List.mem_map.mp hx with ⟨f, hf, rfl⟩
        exact hall f hf
      have hsp : List.Subperm ((requiredFields fields).map (·.id)) ids :=
        (List.subperm_of_subset hreqnd hsub2)
      have hlen : (requiredFields fields).length ≤ ids.length := by
        have := hsp.length_le
        simpa using this
      simp [allSigned, hlen, hpos]

/-- C1 witness: the bridge statement of `allSigned_spec` applied to a concrete
two-field document (one required, one optional) whose required field is the
unique ledger entry. -/
theorem allSigned_spec_witness :
    allSigned [sampleRequiredField] ["f1".data] = true ↔
      (0 < (requiredFields [sampleRequiredField]).length ∧
        ∀ f ∈ requiredFields [sampleRequiredField], f.id ∈ [("f1".data : Str)]) :=
  (allSigned_spec [sampleRequiredField] ["f1".data]).2.2
    (by decide) (by decide) (by decide)

/-- C10: `goToPage(p)` stores exactly `max(1, min(p, numPages))`, and for a
loaded document (`numPages ≥ 1`) the stored page always lies within
`[1, numPages]`; requests below 1 clamp to 1 and requests past the end clamp
to `numPages`.  The operation is a total function: no input raises an error. -/
theorem goToPage_clamps (p : Int) (st : ViewerState) :
    (goToPage p st).pageNumber = max 1 (min p st.numPages) ∧
      (1 ≤ st.numPages →
        1 ≤ (goToPage p st).pageNumber ∧
          (goToPage p st).pageNumber ≤ st.numPages ∧
          (p ≤ 0 → (goToPage p st).pageNumber = 1) ∧
          (st.numPages ≤ p → (goToPage p st).pageNumber = st.numPages)) := by
  refine ⟨rfl, fun h => ?_⟩
  simp only [goToPage]
  refine ⟨le_max_left _ _, ?_, ?_, ?_⟩
  · exact max_le h (min_le_right _ _)
  · intro hp
    have : min p st.numPages ≤ 1 := le_trans (min_le_left _ _) (by omega)
    omega
  · intro hp
    have hmin : min p st.numPages = st.numPages := min_eq_right hp
    rw [hmin]
    exact max_eq_right h

/-- C10 witness: `goToPage 0` on a three-page document clamps to page 1. -/
theorem goToPage_clamps_witness :
    (goToPage 0 { pageNumber := 2, numPages := 3 }).pageNumber =
        max 1 (min 0 (3 : Int)) ∧
      1 ≤ (goToPage 0 { pageNumber := 2, numPages := 3 }).pageNumber ∧
        (goToPage 0 { pageNumber := 2, numPages := 3 }).pageNumber ≤ 3 := by
  have h := goToPage_clamps 0 { pageNumber := 2, numPages := 3 }
  have h2 := h.2 (by decide)
  exact ⟨h.1, h2.1, h2.2.1⟩

/-! ### Theorems for C5 and C6 -/

/-- C5 (counterexample): `createCFRCompliantSignature` performs no image
payload validation: with a fully valid context but an SVG payload — which
`validateImageDataUrl` rejects — stamping still succeeds and produces a
`SignatureRecord`. -/
theorem createCFR_accepts_invalid_payload :
    validateImageDataUrl svgPayload = false ∧
      ∃ r, createCFRCompliantSignature (SigKind.drawn, svgPayload) sampleContext
          "I approve this document".data sampleAmbient = Except.ok r :=
  ⟨by decide, ⟨_, rfl⟩⟩

/-- C5 (amended): stamping fails exactly when one of `signerName`,
`signerId`, `documentHash` or the intent is empty — in which case no record
is produced — and on success the record carries the supplied identity fields;
the image payload is not validated by the stamping operation itself. -/
theorem createCFR_validation_spec (baseData : SigKind × Str)
    (context : SignContext) (signatureIntent : Str) (amb : Ambient) :
    ((∃ e, createCFRCompliantSignature baseData context signatureIntent amb =
          Except.error e) ↔
        (context.signerName = [] ∨ context.signerId = [] ∨
          context.documentHash = [] ∨ signatureIntent = [])) ∧
      ∀ r, createCFRCompliantSignature baseData context signatureIntent amb =
          Except.ok r →
        r.signerName = context.signerName ∧ r.signerId = context.signerId ∧
          r.documentHash = context.documentHash ∧
          r.signerIntent = signatureIntent ∧
          r.type = baseData.1 ∧ r.data = baseData.2 := by
  constructor
  · constructor
    · rintro ⟨e, he⟩
      by_contra hno
      push_neg at hno
      obtain ⟨hn1, hn2, hn3, hn4⟩ := hno
      unfold createCFRCompliantSignature at he
      rw [if_neg hn1, if_neg hn2, if_neg hn3, if_neg hn4] at he
      simp at he
    · intro hdisj
      by_cases h1 : context.signerName = []
      · refine ⟨"signerName is required for CFR Part 11 compliance".data, ?_⟩
        unfold createCFRCompliantSignature
        rw [if_pos h1]
      · by_cases h2 : context.signerId = []
        · refine ⟨"signerId is required for CFR Part 11 compliance".data, ?_⟩
          unfold createCFRCompliantSignature
          rw [if_neg h1, if_pos h2]
        · by_cases h3 : context.documentHash = []
          · refine ⟨"documentHash is required for CFR Part 11 compliance".data, ?_⟩
            unfold createCFRCompliantSignature
            rw [if_neg h1, if_neg h2, if_pos h3]
          · by_cases h4 : signatureIntent = []
            · refine ⟨"signatureIntent is required for CFR Part 11 compliance".data, ?_⟩
              unfold createCFRCompliantSignature
              rw [if_neg h1, if_neg h2, if_neg h3, if_pos h4]
            · rcases hdisj with h | h | h | h <;> contradiction
  · intro r hr
    unfold createCFRCompliantSignature at hr
    dsimp only at hr
    split_ifs at hr with h1 h2 h3 h4
    simp only [Except.ok.injEq] at hr
    subst hr
    exact ⟨rfl, rfl, rfl, rfl, rfl, rfl⟩

/-- C5 witness: an empty `signerName` makes stamping fail, and on the valid
sample context the record carries the supplied identity fields. -/
theorem createCFR_validation_spec_witness :
    (∃ e, createCFRCompliantSignature (SigKind.typed, "sig".data)
        emptyNameContext "I approve this document".data sampleAmbient =
          Except.error e) ∧
      ∃ r, createCFRCompliantSignature (SigKind.typed, "sig".data) sampleContext
          "I approve this document".data sampleAmbient = Except.ok r ∧
        r.signerName = sampleContext.signerName :=
  ⟨(createCFR_validation_spec (SigKind.typed, "sig".data) emptyNameContext
      "I approve this document".data sampleAmbient).1.mpr (Or.inl rfl),
    ⟨_, rfl,
      ((createCFR_validation_spec (SigKind.typed, "sig".data) sampleContext
        "I approve this document".data sampleAmbient).2 _ rfl).1⟩⟩

/-- C6 (code bug): `createCFRCompliantSignature` takes no `collectDeviceInfo`
parameter — although its caller `SignatureTyped` passes one, the spec and the
README describe the flag as an opt-in defaulting to false, and GDPR comments
state the intent — and every successfully stamped record unconditionally
carries the device info, the user agent and the context's ip address. -/
theorem createCFR_always_collects_device (baseData : SigKind × Str)
    (context : SignContext) (signatureIntent : Str) (amb : Ambient) :
    ∀ r, createCFRCompliantSignature baseData context signatureIntent amb =
        Except.ok r →
      r.deviceInfo = some
          { platform := amb.platform
            browser := amb.userAgent
            isMobile := isMobileUA amb.userAgent
            screenResolution := some amb.screenResolution } ∧
        r.userAgent = some amb.userAgent ∧
        r.ipAddress = context.ipAddress ∧
        r.timestamp = amb.now := by
  intro r hr
  unfold createCFRCompliantSignature at hr
  dsimp only at hr
  split_ifs at hr with h1 h2 h3 h4
  simp only [Except.ok.injEq] at hr
  subst hr
  exact ⟨rfl, rfl, rfl, rfl⟩

/-- C6 witness: the concrete stamped record contains device info, user agent
and ip address although no opt-in exists. -/
theorem createCFR_always_collects_device_witness :
    ∃ r, createCFRCompliantSignature (SigKind.typed, "sig".data) sampleContext
        "I approve this document".data sampleAmbient = Except.ok r ∧
      r.deviceInfo = some
          { platform := sampleAmbient.platform
            browser := sampleAmbient.userAgent
            isMobile := isMobileUA sampleAmbient.userAgent
            screenResolution := some sampleAmbient.screenResolution } ∧
        r.userAgent = some sampleAmbient.userAgent ∧
        r.ipAddress = sampleContext.ipAddress :=
  ⟨_, rfl,
    (createCFR_always_collects_device (SigKind.typed, "sig".data) sampleContext
      "I approve this document".data sampleAmbient _ rfl).1,
    (createCFR_always_collects_device (SigKind.typed, "sig".data) sampleContext
      "I approve this document".data sampleAmbient _ rfl).2.1,
    (createCFR_always_collects_device (SigKind.typed, "sig".data) sampleContext
      "I approve this document".data sampleAmbient _ rfl).2.2.1⟩

/-! ### Theorems for C7

The canonical serialization is a prefix code: distinct seven-field tuples
serialize to distinct strings, so any SHA-256 collision between two records
differing in one field is a collision of the hash function itself.
Determinism is immediate; the universal hash-inequality of the claim is
refuted by pigeonhole, since the digest space is finite while the field
space is not. -/

theorem char_toNat_inj {c d : Char} (h : c.toNat = d.toNat) : c = d := by
  apply Char.eq_of_val_eq
  exact UInt32.toNat.inj h

theorem escChar_special {c k : Char} (h : specialEsc c = some k) :
    escChar c = ['\\', k] := by
  unfold escChar
  rw [h]

theorem escChar_ctrl {c : Char} (h1 : specialEsc c = none) (h2 : c.toNat < 32) :
    escChar c =
      ['\\', 'u', '0', '0', hexDigit (c.toNat / 16), hexDigit (c.toNat % 16)] := by
  unfold escChar
  rw [h1]
  simp [h2]

theorem escChar_plain {c : Char} (h1 : specialEsc c = none) (h2 : ¬ c.toNat < 32) :
    escChar c = [c] := by
  unfold escChar
  rw [h1]
  simp [h2]

theorem specialEsc_some_cases {c k : Char} (h : specialEsc c = some k) :
    (c = '"' ∧ k = '"') ∨ (c = '\\' ∧ k = '\\') ∨
      (c = Char.ofNat 8 ∧ k = 'b') ∨ (c = Char.ofNat 9 ∧ k = 't') ∨
      (c = Char.ofNat 10 ∧ k = 'n') ∨ (c = Char.ofNat 12 ∧ k = 'f') ∨
      (c = Char.ofNat 13 ∧ k = 'r') := by
  unfold specialEsc at h
  split_ifs at h with h1 h2 h3 h4 h5 h6 h7
  · exact Or.inl ⟨h1, (Option.some.inj h).symm⟩
  · exact Or.inr (Or.inl ⟨h2, (Option.some.inj h).symm⟩)
  · exact Or.inr (Or.inr (Or.inl ⟨h3, (Option.some.inj h).symm⟩))
  · exact Or.inr (Or.inr (Or.inr (Or.inl ⟨h4, (Option.some.inj h).symm⟩)))
  · exact Or.inr (Or.inr (Or.inr (Or.inr (Or.inl ⟨h5, (Option.some.inj h).symm⟩))))
  · exact Or.inr (Or.inr (Or.inr (Or.inr (Or.inr
      (Or.inl ⟨h6, (Option.some.inj h).symm⟩)))))
  · exact Or.inr (Or.inr (Or.inr (Or.inr (Or.inr
      (Or.inr ⟨h7, (Option.some.inj h).symm⟩)))))

theorem specialEsc_inj {c d k : Char} (hc : specialEsc c = some k)
    (hd : specialEsc d = some k) : c = d := by
  rcases specialEsc_some_cases hc with ⟨rfl, rfl⟩ | ⟨rfl, rfl⟩ | ⟨rfl, rfl⟩ |
    ⟨rfl, rfl⟩ | ⟨rfl, rfl⟩ | ⟨rfl, rfl⟩ | ⟨rfl, rfl⟩ <;>
    rcases specialEsc_some_cases hd with ⟨rfl, hk⟩ | ⟨rfl, hk⟩ | ⟨rfl, hk⟩ |
      ⟨rfl, hk⟩ | ⟨rfl, hk⟩ | ⟨rfl, hk⟩ | ⟨rfl, hk⟩ <;>
    first
      | rfl
      | exact absurd hk (by decide)

theorem specialEsc_ne_u {c k : Char} (h : specialEsc c = some k) : k ≠ 'u' := by
  rcases specialEsc_some_cases h with ⟨_, rfl⟩ | ⟨_, rfl⟩ | ⟨_, rfl⟩ |
    ⟨_, rfl⟩ | ⟨_, rfl⟩ | ⟨_, rfl⟩ | ⟨_, rfl⟩ <;> decide

theorem specialEsc_none_ne_quote {c : Char} (h : specialEsc c = none) :
    c ≠ '"' := by
  intro hc
  subst hc
  simp [specialEsc] at h

theorem specialEsc_none_ne_backslash {c : Char} (h : specialEsc c = none) :
    c ≠ '\\' := by
  intro hc
  subst hc
  simp [specialEsc] at h

theorem hexDigit_inj : ∀ a < 16, ∀ b < 16, hexDigit a = hexDigit b → a = b := by
  decide

/-- The per-character JSON escapes form a prefix code. -/
theorem escChar_prefix {c d : Char} {u v : Str}
    (h : escChar c ++ u = escChar d ++ v) : c = d ∧ u = v := by
  cases hc : specialEsc c with
  | some kc =>
    cases hd : specialEsc d with
    | some kd =>
      rw [escChar_special hc, escChar_special hd] at h
      simp only [List.cons_append, List.nil_append, List.cons.injEq, true_and] at h
      obtain ⟨hk, hu⟩ := h
      subst hk
      exact ⟨specialEsc_inj hc hd, hu⟩
    | none =>
      by_cases h2 : d.toNat < 32
      · rw [escChar_special hc, escChar_ctrl hd h2] at h
        simp only [List.cons_append, List.nil_append, List.cons.injEq,
          true_and] at h
        exact absurd h.1 (specialEsc_ne_u hc)
      · rw [escChar_special hc, escChar_plain hd h2] at h
        simp only [List.cons_append, List.nil_append, List.cons.injEq] at h
        exact absurd h.1.symm (specialEsc_none_ne_backslash hd)
  | none =>
    cases hd : specialEsc d with
    | some kd =>
      by_cases h1 : c.toNat < 32
      · rw [escChar_ctrl hc h1, escChar_special hd] at h
        simp only [List.cons_append, List.nil_append, List.cons.injEq,
          true_and] at h
        exact absurd h.1.symm (specialEsc_ne_u hd)
      · rw [escChar_plain hc h1, escChar_special hd] at h
        simp only [List.cons_append, List.nil_append, List.cons.injEq] at h
        exact absurd h.1 (specialEsc_none_ne_backslash hc)
    | none =>
      by_cases h1 : c.toNat < 32 <;> by_cases h2 : d.toNat < 32
      · rw [escChar_ctrl hc h1, escChar_ctrl hd h2] at h
        simp only [List.cons_append, List.nil_append, List.cons.injEq,
          true_and] at h
        obtain ⟨hhi, hlo, hu⟩ := h
        have hdiv : c.toNat / 16 = d.toNat / 16 :=
          hexDigit_inj _ (by omega) _ (by omega) hhi
        have hmod : c.toNat % 16 = d.toNat % 16 :=
          hexDigit_inj _ (by omega) _ (by omega) hlo
        refine ⟨char_toNat_inj ?_, hu⟩
        omega
      · rw [escChar_ctrl hc h1, escChar_plain hd h2] at h
        simp only [List.cons_append, List.nil_append, List.cons.injEq] at h
        exact absurd h.1.symm (specialEsc_none_ne_backslash hd)
      · rw [escChar_plain hc h1, escChar_ctrl hd h2] at h
        simp only [List.cons_append, List.nil_append, List.cons.injEq] at h
        exact absurd h.1 (specialEsc_none_ne_backslash hc)
      · rw [escChar_plain hc h1, escChar_plain hd h2] at h
        simp only [List.cons_append, List.nil_append, List.cons.injEq] at h
        exact h

/-- No escaped character starts with a raw quote. -/
theorem escChar_append_ne_quote {c : Char} {u v : Str}
    (h : escChar c ++ u = '"' :: v) : False := by
  cases hc : specialEsc c with
  | some kc =>
    rw [escChar_special hc] at h
    simp at h
  | none =>
    by_cases h1 : c.toNat < 32
    · rw [escChar_ctrl hc h1] at h
      simp at h
    · rw [escChar_plain hc h1] at h
      simp only [List.cons_append, List.nil_append, List.cons.injEq] at h
      exact absurd h.1 (specialEsc_none_ne_quote hc)

theorem jsonEscape_nil : jsonEscape [] = [] := rfl

theorem jsonEscape_cons (c : Char) (s : Str) :
    jsonEscape (c :: s) = escChar c ++ jsonEscape s := by
  simp [jsonEscape]

/-- A JSON-escaped string followed by a raw closing quote determines the
string and the remainder. -/
theorem seg_inj {x y : Str} {a b : Str} (h : seg x a = seg y b) :
    x = y ∧ a = b := by
  induction x generalizing y with
  | nil =>
    cases y with
    | nil =>
      simp only [seg, jsonEscape_nil, List.nil_append, List.cons.injEq,
        true_and] at h
      exact ⟨rfl, h⟩
    | cons d ys =>
      exfalso
      unfold seg at h
      rw [jsonEscape_nil, jsonEscape_cons, List.nil_append, List.append_assoc] at h
      exact escChar_append_ne_quote h.symm
  | cons c xs ih =>
    cases y with
    | nil =>
      exfalso
      unfold seg at h
      rw [jsonEscape_nil, jsonEscape_cons, List.nil_append, List.append_assoc] at h
      exact escChar_append_ne_quote h
    | cons d ys =>
      unfold seg at h
      rw [jsonEscape_cons, jsonEscape_cons, List.append_assoc,
        List.append_assoc] at h
      obtain ⟨hcd, hrest⟩ := escChar_prefix h
      subst hcd
      obtain ⟨hxy, hab⟩ := ih hrest
      subst hxy
      exact ⟨rfl, hab⟩

theorem kindStr_inj {a b : SigKind} (h : kindStr a = kindStr b) : a = b := by
  cases a <;> cases b <;> first | rfl | exact absurd h (by decide)

/-- The canonical serialization is injective on the seven hashed fields. -/
theorem hashInput_inj {d1 d2 : SignatureData} (h : hashInput d1 = hashInput d2) :
    tuple7 d1 = tuple7 d2 := by
  unfold hashInput at h
  have h1 := List.append_cancel_left h
  obtain ⟨hk, h2⟩ := seg_inj h1
  have h2a := List.append_cancel_left h2
  obtain ⟨hdata, h3⟩ := seg_inj h2a
  have h3a := List.append_cancel_left h3
  obtain ⟨hts, h4⟩ := seg_inj h3a
  have h4a := List.append_cancel_left h4
  obtain ⟨hname, h5⟩ := seg_inj h4a
  have h5a := List.append_cancel_left h5
  obtain ⟨hid, h6⟩ := seg_inj h5a
  have h6a := List.append_cancel_left h6
  obtain ⟨hintent, h7⟩ := seg_inj h6a
  have h7a := List.append_cancel_left h7
  obtain ⟨hdoc, _⟩ := seg_inj h7a
  simp only [tuple7, HashFields.mk.injEq]
  exact ⟨kindStr_inj hk, hdata, hts, hname, hid, hintent, hdoc⟩

/-- C7 (amended): `generateSignatureHash` is deterministic — records agreeing
on the seven hashed fields hash identically — and records differing in any of
the seven fields have different canonical serializations (different SHA-256
preimages); equality of the hashes themselves for such records would be a
SHA-256 collision. -/
theorem generateSignatureHash_spec (d1 d2 : SignatureData) :
    (tuple7 d1 = tuple7 d2 →
        generateSignatureHash d1 = generateSignatureHash d2) ∧
      (tuple7 d1 ≠ tuple7 d2 → hashInput d1 ≠ hashInput d2) := by
  constructor
  · intro h
    have heq : hashInput d1 = hashInput d2 := by
      simp only [tuple7, HashFields.mk.injEq] at h
      obtain ⟨h1, h2, h3, h4, h5, h6, h7⟩ := h
      simp [hashInput, h1, h2, h3, h4, h5, h6, h7]
    unfold generateSignatureHash
    rw [heq]
  · intro hne h
    exact hne (hashInput_inj h)

/-- C7 witness: determinism at a concrete record, and distinct serializations
for two records differing only in `signerName`. -/
theorem generateSignatureHash_spec_witness :
    generateSignatureHash sampleSignatureData =
        generateSignatureHash sampleSignatureData ∧
      hashInput sampleSignatureData ≠ hashInput sampleSignatureDataJane :=
  ⟨(generateSignatureHash_spec sampleSignatureData sampleSignatureData).1 rfl,
    (generateSignatureHash_spec sampleSignatureData sampleSignatureDataJane).2
      (by decide)⟩

theorem sha256Block_bounded (hs : Hash8) (block : List Nat) :
    (sha256Block hs block).bounded := by
  unfold sha256Block Hash8.bounded mod32
  refine ⟨?_, ?_, ?_, ?_, ?_, ?_, ?_, ?_⟩ <;> exact Nat.mod_lt _ (by decide)

theorem sha256Blocks_bounded (fuel : Nat) (hs : Hash8) (ws : List Nat)
    (h : hs.bounded) : (sha256Blocks fuel hs ws).bounded := by
  induction fuel generalizing hs ws with
  | zero => exact h
  | succ n ih =>
    unfold sha256Blocks
    by_cases hw : ws = []
    · simpa [hw] using h
    · simp only [hw, if_neg]
      exact ih _ _ (sha256Block_bounded hs (ws.take 16))

theorem sha256Init_bounded : sha256Init.bounded := by
  unfold sha256Init Hash8.bounded
  norm_num

/-- The digest is a 256-bit number. -/
theorem sha256Num_lt (msg : List Nat) :
    sha256Num msg < 115792089237316195423570985008687907853269984665640564039457584007913129639936 := by
  unfold sha256Num
  dsimp only
  have h := sha256Blocks_bounded (bytesToWords (padMessage msg)).length
    sha256Init (bytesToWords (padMessage msg)) sha256Init_bounded
  obtain ⟨h1, h2, h3, h4, h5, h6, h7, h8⟩ := h
  omega

/-- C7 (counterexample): the claim's universal hash-inequality is false for
the real SHA-256: the digest space is finite while signer names range over
all strings, so by pigeonhole there exist two records that agree on six of
the seven hashed fields, differ in `signerName`, and still receive the very
same `generateSignatureHash` value. -/
theorem generateSignatureHash_collision :
    ∃ d1 d2 : SignatureData,
      d1.signerName ≠ d2.signerName ∧
        d1.type = d2.type ∧ d1.data = d2.data ∧ d1.timestamp = d2.timestamp ∧
        d1.signerId = d2.signerId ∧ d1.signerIntent = d2.signerIntent ∧
        d1.documentHash = d2.documentHash ∧
        generateSignatureHash d1 = generateSignatureHash d2 := by
  haveI : Infinite Str := inferInstanceAs (Infinite (List Char))
  obtain ⟨s1, s2, hne, hfe⟩ :=
    Finite.exists_ne_map_eq_of_infinite
      (fun s : Str =>
        (⟨sha256Num (utf8Encode (hashInput
            { sampleSignatureData with signerName := s })),
          sha256Num_lt _⟩ :
          Fin 115792089237316195423570985008687907853269984665640564039457584007913129639936))
  refine ⟨{ sampleSignatureData with signerName := s1 },
    { sampleSignatureData with signerName := s2 },
    by simpa using hne, rfl, rfl, rfl, rfl, rfl, rfl, ?_⟩
  have hnum := congrArg Fin.val hfe
  simp only at hnum
  unfold generateSignatureHash
  rw [hnum]

/-! ### Theorems for C8 -/

theorem length_filterMap_eq_countP {α β : Type} (f : α → Option β) (l : List α) :
    (l.filterMap f).length = l.countP fun a => (f a).isSome := by
  induction l with
  | nil => rfl
  | cons x xs ih =>
    cases hf : f x with
    | none => simp [List.filterMap_cons, hf, List.countP_cons, ih]
    | some b => simp [List.filterMap_cons, hf, List.countP_cons, ih]

theorem countP_enumFrom {α : Type} (q : α → Bool) (l : List α) (n : Nat) :
    (l.enumFrom n).countP (fun p => q p.2) = l.countP q := by
  induction l generalizing n with
  | nil => rfl
  | cons x xs ih => simp [List.enumFrom_cons, List.countP_cons, ih]

/-- The skip decision of `extractOne` depends only on the rect validation. -/
theorem extractOne_isSome (i0 : Nat) (p : Nat × Ann) :
    (extractOne i0 p).isSome = (validateRect p.2.rect).isSome := by
  unfold extractOne
  cases validateRect p.2.rect <;> rfl

/-- Every value produced by a successful `validateRect` satisfies the
coordinate and dimension bounds of the source checks. -/
theorem validateRect_bounds {rect : Option (List JSNum)} {r : Rect4}
    (h : validateRect rect = some r) :
    |r.x1| ≤ 100000 ∧ |r.y1| ≤ 100000 ∧
      10 ≤ r.x2 - r.x1 ∧ r.x2 - r.x1 ≤ 10000 ∧
      10 ≤ r.y2 - r.y1 ∧ r.y2 - r.y1 ≤ 10000 := by
  have habs : ∀ n : JSNum, n.isNaN = false → JSNum.absGt 100000 n = false →
      |n.val| ≤ 100000 := by
    intro n h1 h2
    cases n with
    | nan => simp [JSNum.isNaN] at h1
    | posInf => simp [JSNum.absGt] at h2
    | negInf => simp [JSNum.absGt] at h2
    | fin q =>
      simp only [JSNum.absGt, decide_eq_false_iff_not, not_or, not_lt] at h2
      simp only [JSNum.val]
      exact abs_le.mpr ⟨h2.2, h2.1⟩
  cases rect with
  | none => simp [validateRect] at h
  | some nums =>
    match nums with
    | [n0, n1, n2, n3] =>
      simp only [validateRect] at h
      split_ifs at h with h1 h2 h3 h4 h5
      simp only [Option.some.injEq] at h
      subst h
      push_neg at h3 h4 h5
      have hn : ∀ n ∈ [n0, n1, n2, n3], n.isNaN = false := by
        intro n hn
        have := (List.any_eq_false).mp (by simpa using h1) n hn
        simpa using this
      have ha : ∀ n ∈ [n0, n1, n2, n3], JSNum.absGt 100000 n = false := by
        intro n hn
        have := (List.any_eq_false).mp (by simpa using h2) n hn
        simpa using this
      exact ⟨habs n0 (hn n0 (by simp)) (ha n0 (by simp)),
        habs n1 (hn n1 (by simp)) (ha n1 (by simp)),
        h4.1, h5.1, h4.2, h5.2⟩
    | [] => simp [validateRect] at h
    | [_] => simp [validateRect] at h
    | [_, _] => simp [validateRect] at h
    | [_, _, _] => simp [validateRect] at h
    | _ :: _ :: _ :: _ :: _ :: _ => simp [validateRect] at h

theorem map_enumFrom_snd {α β : Type} (c : α → β) (l : List α) (n : Nat) :
    (l.enumFrom n).map (fun p => c p.2) = l.map c := by
  induction l generalizing n with
  | nil => rfl
  | cons x xs ih => simp [List.enumFrom_cons, ih]

/-- The too-small rect `[0,0,5,5]` fails validation. -/
theorem validateRect_smallRect :
    validateRect (some [JSNum.fin 0, JSNum.fin 0, JSNum.fin 5, JSNum.fin 5]) =
      none := by
  simp only [validateRect, JSNum.isNaN, JSNum.absGt, JSNum.val,
    List.any_cons, List.any_nil]
  norm_num

/-- C8: every page keeps exactly its `Widget`/`Sig` annotations with a valid
rect — the extracted field count is the per-page count of such annotations,
so a retained annotation with an invalid rect (wrong arity, `NaN`, excessive
magnitude, or width/height outside `[10, 10000]`) is skipped entirely and no
default rectangle is substituted: every emitted bounding box obeys the
validated bounds.  In particular a `rect=[0,0,5,5]` annotation produces zero
fields, and the function is total (it cannot throw). -/
theorem extractSignatureFields_spec (pages : List (List Ann)) :
    ((extractSignatureFields pages).length =
        (pages.map fun anns =>
          (anns.filter isSigWidget).countP fun ann =>
            (validateRect ann.rect).isSome).sum) ∧
      ((extractSignatureFields pages).all fun f =>
        decide (10 ≤ f.boundingBox.width) && decide (f.boundingBox.width ≤ 10000) &&
          decide (10 ≤ f.boundingBox.height) && decide (f.boundingBox.height ≤ 10000) &&
          decide (|f.boundingBox.x| ≤ 100000) && decide (|f.boundingBox.y| ≤ 100000)) =
        true ∧
      extractSignatureFields [[smallRectAnn]] = [] := by
  refine ⟨?_, ?_, ?_⟩
  · unfold extractSignatureFields
    rw [List.length_flatten, List.map_map]
    have hpage : (List.length ∘ fun pg : Nat × List Ann =>
        ((pg.2.filter isSigWidget).enum.filterMap (extractOne pg.1))) =
          fun pg : Nat × List Ann =>
            (pg.2.filter isSigWidget).countP fun ann =>
              (validateRect ann.rect).isSome := by
      funext pg
      simp only [Function.comp_apply]
      rw [length_filterMap_eq_countP]
      have hsame : (fun p : Nat × Ann => (extractOne pg.1 p).isSome) =
          fun p : Nat × Ann => (validateRect p.2.rect).isSome := by
        funext p
        exact extractOne_isSome pg.1 p
      rw [hsame, List.enum]
      exact countP_enumFrom (fun ann : Ann => (validateRect ann.rect).isSome) _ 0
    rw [hpage, List.enum]
    exact congrArg List.sum
      (map_enumFrom_snd
        (fun anns : List Ann =>
          (anns.filter isSigWidget).countP fun ann => (validateRect ann.rect).isSome)
        pages 0)
  · rw [List.all_eq_true]
    intro f hf
    unfold extractSignatureFields at hf
    rw [List.mem_flatten] at hf
    obtain ⟨l, hl, hfl⟩ := hf
    rw [List.mem_map] at hl
    obtain ⟨pg, _, rfl⟩ := hl
    rw [List.mem_filterMap] at hfl
    obtain ⟨p, _, hone⟩ := hfl
    unfold extractOne at hone
    cases hv : validateRect p.2.rect with
    | none => rw [hv] at hone; simp at hone
    | some r =>
      rw [hv] at hone
      simp only [Option.some.injEq] at hone
      obtain ⟨hb1, hb2, hb3, hb4, hb5, hb6⟩ := validateRect_bounds hv
      subst hone
      simp only [Bool.and_eq_true, decide_eq_true_eq]
      exact ⟨⟨⟨⟨⟨hb3, hb4⟩, hb5⟩, hb6⟩, hb1⟩, hb2⟩
  · unfold extractSignatureFields
    simp [smallRectAnn, isSigWidget, extractOne, validateRect_smallRect,
      List.enum, List.enumFrom]

/-! ### Theorems for C9 -/

/-- C9 (counterexample): on `Jo<NBSP>e` the claim's failure condition holds —
the no-break space is outside letters/space/hyphen/apostrophe/period and is
not a control character — yet `sanitizeSignatureText` succeeds and returns the
input unchanged, because the code's character class is the JS `\s`, which
admits non-ASCII whitespace. -/
theorem sanitizeSignatureText_accepts_nbsp :
    claimFailCond nbspName ∧
      sanitizeSignatureText nbspName = Except.ok nbspName ∧
      claimAllowedChar (Char.ofNat 160) = false ∧
      isControlChar (Char.ofNat 160) = false := by
  decide

/-- C9 (amended): `sanitizeSignatureText` fails exactly when the trimmed text
has length < 2 or > 100, contains a character outside letters, *JS
whitespace*, hyphen, apostrophe and period, or contains an ASCII control
character (so ASCII whitespace other than the space character is still
rejected, while non-ASCII whitespace such as U+00A0 is accepted); on success
it returns the trimmed text.  The spec's examples hold: `"Jo"` succeeds,
`"J"` and `"John123"` fail, `" John Doe "` returns `"John Doe"`. -/
theorem sanitizeSignatureText_spec :
    (∀ text : Str,
      ((∃ e, sanitizeSignatureText text = Except.error e) ↔
          ((jsTrim text).length < 2 ∨ 100 < (jsTrim text).length ∨
            (∃ c ∈ jsTrim text, allowedSigChar c = false) ∨
            ∃ c ∈ jsTrim text, isControlChar c = true)) ∧
        ∀ r, sanitizeSignatureText text = Except.ok r → r = jsTrim text) ∧
      sanitizeSignatureText "Jo".data = Except.ok "Jo".data ∧
      (∃ e, sanitizeSignatureText "J".data = Except.error e) ∧
      (∃ e, sanitizeSignatureText "John123".data = Except.error e) ∧
      sanitizeSignatureText " John Doe ".data = Except.ok "John Doe".data := by
  refine ⟨?_, by decide,
    ⟨"Signature must be at least 2 characters long".data, by decide⟩,
    ⟨"Signature can only contain letters, spaces, hyphens, apostrophes, and periods".data,
      by decide⟩,
    by decide⟩
  intro text
  have hchain :
      (sanitizeSignatureText text = Except.ok (jsTrim text) ∧
        ¬ ((jsTrim text).length < 2 ∨ 100 < (jsTrim text).length ∨
          (∃ c ∈ jsTrim text, allowedSigChar c = false) ∨
          ∃ c ∈ jsTrim text, isControlChar c = true)) ∨
      ((∃ e, sanitizeSignatureText text = Except.error e) ∧
        ((jsTrim text).length < 2 ∨ 100 < (jsTrim text).length ∨
          (∃ c ∈ jsTrim text, allowedSigChar c = false) ∨
          ∃ c ∈ jsTrim text, isControlChar c = true)) := by
    unfold sanitizeSignatureText
    dsimp only
    split_ifs with h1 h2 h3 h4
    · exact Or.inr ⟨⟨_, rfl⟩, Or.inl h1⟩
    · exact Or.inr ⟨⟨_, rfl⟩, Or.inr (Or.inl h2)⟩
    · refine Or.inr ⟨⟨_, rfl⟩, Or.inr (Or.inr (Or.inr ?_))⟩
      simpa using List.any_eq_true.mp h4
    · refine Or.inl ⟨rfl, ?_⟩
      rintro (h | h | ⟨c, hc, hcb⟩ | ⟨c, hc, hcb⟩)
      · omega
      · omega
      · have := List.all_eq_true.mp h3 c hc
        rw [hcb] at this
        simp at this
      · exact absurd (List.any_eq_true.mpr ⟨c, hc, hcb⟩) h4
    · refine Or.inr ⟨⟨_, rfl⟩, Or.inr (Or.inr (Or.inl ?_))⟩
      have hex : ∃ c ∈ jsTrim text, ¬ allowedSigChar c = true := by
        by_contra hno
        push_neg at hno
        exact h3 (List.all_eq_true.mpr fun c hc => hno c hc)
      obtain ⟨c, hc, hcb⟩ := hex
      exact ⟨c, hc, by simpa using hcb⟩
  constructor
  · constructor
    · rintro ⟨e, he⟩
      rcases hchain with ⟨hok, _⟩ | ⟨_, hcond⟩
      · rw [hok] at he
        simp at he
      · exact hcond
    · intro hcond
      rcases hchain with ⟨_, hnc⟩ | ⟨hex, _⟩
      · exact absurd hcond hnc
      · exact hex
  · intro r hr
    rcases hchain with ⟨hok, _⟩ | ⟨⟨e, he⟩, _⟩
    · rw [hok] at hr
      exact (Except.ok.inj hr).symm
    · rw [he] at hr
      simp at hr

/-- C9 witness: the success clause of the amended theorem applied to the
spec's `" John Doe "` example. -/
theorem sanitizeSignatureText_spec_witness :
    ("John Doe".data : Str) = jsTrim " John Doe ".data :=
  (sanitizeSignatureText_spec.1 " John Doe ".data).2 "John Doe".data (by decide)

/-! ### Theorem for C4 -/

/-- C4: `validateImageDataUrl` returns true exactly for non-empty strings of
at most 5·1024·1024 characters that exactly match
`data:image/(png|jpeg|jpg|gif|webp);base64,<body>` with a base64 body whose
estimated decoded size `|body|·3/4` is at most 2 MB and which contains no
null bytes; and every `data:image/svg+xml` payload is rejected regardless of
its content. -/
theorem validateImageDataUrl_spec :
    (∀ s : Str, validateImageDataUrl s = true ↔ specSafeImagePayload s) ∧
      ∀ b : Str,
        validateImageDataUrl ("data:image/svg+xml;base64,".data ++ b) = false := by
  have hmain : ∀ s : Str, validateImageDataUrl s = true ↔ specSafeImagePayload s := by
    intro s
    rw [validateImageDataUrl_eq_true_iff]
    unfold specSafeImagePayload
    constructor
    · rintro ⟨h0, h1, t, b, hm, h2, h3⟩
      obtain ⟨ht, hbody, rfl⟩ := matchImageDataUrl_eq_some_iff.mp hm
      obtain ⟨core, pad, rfl, hcne, hcall, hpall⟩ := isBase64Body_iff.mp hbody
      exact ⟨h0, h1, t, core, pad, ht, rfl, hcne, hcall, hpall, h2, h3⟩
    · rintro ⟨h0, h1, t, core, pad, ht, rfl, hcne, hcall, hpall, h2, h3⟩
      refine ⟨h0, h1, t, core ++ pad, ?_, h2, h3⟩
      exact matchImageDataUrl_eq_some_iff.mpr
        ⟨ht, isBase64Body_iff.mpr ⟨core, pad, rfl, hcne, hcall, hpall⟩, rfl⟩
  refine ⟨hmain, ?_⟩
  intro b
  by_contra hne
  have htrue : validateImageDataUrl ("data:image/svg+xml;base64,".data ++ b) = true := by
    revert hne
    cases validateImageDataUrl ("data:image/svg+xml;base64,".data ++ b) <;> simp
  obtain ⟨h0, h1, t, b2, hm, h2, h3⟩ := validateImageDataUrl_eq_true_iff.mp htrue
  obtain ⟨ht, hbody, heq⟩ := matchImageDataUrl_eq_some_iff.mp hm
  have hlit : "data:image/svg+xml;base64,".data =
      "data:image/".data ++ ("svg+xml".data ++ ';' :: "base64,".data) := by rfl
  have hsb : (";base64,".data : Str) = ';' :: "base64,".data := by rfl
  rw [hlit, hsb] at heq
  have heq2 : "svg+xml".data ++ ';' :: ("base64,".data ++ b) =
      t ++ ';' :: ("base64,".data ++ b2) := by
    have hcan : "data:image/".data ++ ("svg+xml".data ++ ';' :: ("base64,".data ++ b)) =
        "data:image/".data ++ (t ++ ';' :: ("base64,".data ++ b2)) := by
      simpa [List.append_assoc] using heq
    exact List.append_cancel_left hcan
  have hs1 : splitFirst ';' ("svg+xml".data ++ ';' :: ("base64,".data ++ b)) =
      some ("svg+xml".data, "base64,".data ++ b) :=
    splitFirst_append _ (by decide)
  have hs2 : splitFirst ';' (t ++ ';' :: ("base64,".data ++ b2)) =
      some (t, "base64,".data ++ b2) :=
    splitFirst_append _ (allowedImageTypes_wf t ht).1
  rw [heq2, hs2] at hs1
  have hteq : t = "svg+xml".data := by
    have h4 := Option.some.inj hs1
    simpa using congrArg Prod.fst h4
  have : ∀ x ∈ allowedImageTypes, x ≠ "svg+xml".data := by decide
  exact this t ht hteq

/-! ### Theorem for C3 -/

/-- C3 (code bug): any URL whose parsed protocol is outside
`{https, blob, data}` is rejected — including `file`, `javascript` and `ftp` —
but, contrary to the claim and to the repository's own unit test
(tests/unit/pdf-utils.test.ts, "should allow localhost in development mode"),
`http` URLs are rejected even when the runtime mode is development: the
protocol allow-list never contains `http:`. -/
theorem validateDocumentUrl_rejects_http_even_in_dev :
    (∀ (mode : RuntimeMode) (extra : List Str) (origin url : Str),
      ¬ ((parseProtocol url).1 = "https:".data ∨
          (parseProtocol url).1 = "blob:".data ∨
          (parseProtocol url).1 = "data:".data) →
      validateDocumentUrl mode extra origin url = false) ∧
      validateDocumentUrl RuntimeMode.development [] "https://app.example.com".data
        "http://localhost:3000/document.pdf".data = false ∧
      validateDocumentUrl RuntimeMode.development [] "https://app.example.com".data
        "http://127.0.0.1:3000/document.pdf".data = false ∧
      validateDocumentUrl RuntimeMode.production [] "https://app.example.com".data
        "file:///etc/passwd".data = false ∧
      validateDocumentUrl RuntimeMode.production [] "https://app.example.com".data
        "javascript:alert(1)".data = false ∧
      validateDocumentUrl RuntimeMode.production [] "https://app.example.com".data
        "ftp://example.com/document.pdf".data = false := by
  refine ⟨?_, by decide, by decide, by decide, by decide, by decide⟩
  intro mode extra origin url h
  unfold validateDocumentUrl
  by_cases h0 : url = []
  · simp [h0]
  · by_cases h1 : 2048 < url.length
    · simp [h0, h1]
    · simp [h0, h1, h]

/-- C3 witness: the protocol gate applied to the ftp URL of the repository's
unit tests. -/
theorem validateDocumentUrl_rejects_http_even_in_dev_witness :
    validateDocumentUrl RuntimeMode.development ["example.com".data]
      "https://app.example.com".data "ftp://example.com/document.pdf".data = false :=
  validateDocumentUrl_rejects_http_even_in_dev.1 RuntimeMode.development
    ["example.com".data] "https://app.example.com".data
    "ftp://example.com/document.pdf".data (by decide)

/-! ### Theorems for C2 -/

/-- C2 (counterexample): with a single required field and a ledger holding only
an entry for `"sig-9-9"` — an id absent from the field list — the code reports
`allSigned = true`, and removing the orphan entry flips `allSigned` to false.
So an orphan entry is *not* excluded from the `allSigned` computation and can
make `allSigned` true, contrary to the claim. -/
theorem orphanEntry_inflates_allSigned :
    allSigned [sampleRequiredField] ["sig-9-9".data] = true ∧
      allSigned [sampleRequiredField] [] = false := by
  decide

/-- C2 (amended): an orphan ledger entry (field id absent from the field list)
is excluded from the assembled export — removing all orphan entries leaves
`getSignatures` unchanged — but the `allSigned` computation counts ledger
entries by number alone, so orphan entries do count there and can make
`allSigned` true (concrete instance in the last conjunct). -/
theorem getSignatures_excludes_orphans (ts : Str)
    (signatures : List (Str × SignatureData)) (fields : List SignatureField)
    (pageDims : List (Nat × ℚ)) :
    (getSignatures ts signatures fields pageDims =
        getSignatures ts
          (signatures.filter fun p =>
            (fields.find? (fun f => decide (f.id = p.1))).isSome)
          fields pageDims) ∧
      (∀ ids₁ ids₂ : List Str, ids₁.length = ids₂.length →
        allSigned fields ids₁ = allSigned fields ids₂) ∧
      allSigned [sampleRequiredField] ["sig-9-9".data] = true := by
  refine ⟨?_, ?_, by decide⟩
  · unfold getSignatures
    congr 1
    induction signatures with
    | nil => rfl
    | cons p rest ih =>
      by_cases h : (fields.find? (fun f => decide (f.id = p.1))).isSome
      · have hfm : ∃ f, fields.find? (fun f => decide (f.id = p.1)) = some f := by
          cases hf : fields.find? (fun f => decide (f.id = p.1)) with
          | none => rw [hf] at h; simp at h
          | some f => exact ⟨f, rfl⟩
        simp only [List.filterMap_cons, List.filter_cons, h, if_pos]
        obtain ⟨f, hf⟩ := hfm
        simp [sigEntryFor, hf, List.filterMap_cons, ih]
      · have hfn : fields.find? (fun f => decide (f.id = p.1)) = none := by
          cases hf : fields.find? (fun f => decide (f.id = p.1)) with
          | none => rfl
          | some f => rw [hf] at h; simp at h
        simp only [List.filterMap_cons, List.filter_cons]
        simp [sigEntryFor, hfn, h, ih]
  · intro ids₁ ids₂ hlen
    simp [allSigned, hlen]

/-- C2 witness: the length-invariance clause of the amended theorem applied to
a concrete field list and two ledgers of equal size. -/
theorem getSignatures_excludes_orphans_witness :
    allSigned [sampleRequiredField] ["sig-9-9".data] =
      allSigned [sampleRequiredField] ["f1".data] :=
  (getSignatures_excludes_orphans [] [] [sampleRequiredField] []).2.1
    ["sig-9-9".data] ["f1".data] (by decide)

end Helix
